import Mathlib

/-!
# Tagged values and body descriptors of V8

A shallow embedding of `src/objects/tagged-impl.h` (the `TaggedImpl` class
template) and `src/objects/objects-body-descriptors.h` (the body descriptor
class templates), followed by the properties proved about them.

Machine words are natural numbers; a `static_cast` to an unsigned type of
`w` bits is a reduction modulo `2 ^ w`.  Template parameters become ordinary
parameters.  A `CHECK`/`DCHECK` that fails, and `UNREACHABLE()`, end the run:
such functions return an `Option`, with `none` for the fatal outcome.
-/

namespace V8

/-! ## Build configuration -/

/-- The compile-time switches the two headers depend on. -/
structure Config where
  /-- the target has 8-byte pointers (otherwise 4-byte ones) -/
  pointer64 : Bool
  /-- V8_COMPRESS_POINTERS -/
  compressPointers : Bool
  /-- V8_EXTERNAL_CODE_SPACE -/
  externalCodeSpace : Bool
  /-- DEBUG: the DCHECK statements are compiled in -/
  debug : Bool
  /-- ENABLE_SLOW_DCHECKS together with the enable_slow_asserts flag -/
  slowDchecks : Bool
  /-- whether the page of a full pointer belongs to the code sub-space -/
  inCodeSpace : Nat → Bool

/-- The two values of the template parameter kRefType. -/
inductive HeapObjectReferenceType
  | WEAK
  | STRONG
  deriving DecidableEq, Repr

/-- The two types allowed for the template parameter StorageType. -/
inductive StorageType
  | Address
  | Tagged_t
  deriving DecidableEq, Repr

/-- Size in bytes of a system pointer. -/
def kSystemPointerSize (cfg : Config) : Nat := if cfg.pointer64 then 8 else 4

/-- Size in bytes of a tagged field: Tagged_t is uint32_t under pointer
compression and Address otherwise. -/
def kTaggedSize (cfg : Config) : Nat :=
  if cfg.compressPointers then 4 else kSystemPointerSize cfg

/-- The sizeof of a storage type. -/
def StorageType.sizeof (cfg : Config) : StorageType → Nat
  | .Address => kSystemPointerSize cfg
  | .Tagged_t => kTaggedSize cfg

/-- The test std::is_same<S, Address>::value: Tagged_t is an alias of Address
unless pointers are compressed. -/
def StorageType.isAddress (cfg : Config) : StorageType → Bool
  | .Address => true
  | .Tagged_t => !cfg.compressPointers

/-- The cast static_cast<Tagged_t>(x). -/
def static_cast_Tagged_t (cfg : Config) (x : Nat) : Nat := x % 2 ^ (8 * kTaggedSize cfg)

/-- The cast static_cast<uint32_t>(x). -/
def static_cast_uint32_t (x : Nat) : Nat := x % 2 ^ 32

/-! ## Tag constants and macros -/

/-- Modelled from the spec: the constant kClearedWeakHeapObjectLower32 of
include/v8-internal.h, which is not among the sources: the cleared weak
reference is the reserved pattern whose lower 32 bits are 3. -/
def kClearedWeakHeapObjectLower32 : Nat := 3

/-- Modelled from the spec: the macro HAS_SMI_TAG of include/v8-internal.h,
which is not among the sources: a small integer has its low bit 0. -/
def HAS_SMI_TAG (value : Nat) : Bool := value % 2 == 0

/-- Modelled from the spec: the macro HAS_STRONG_HEAP_OBJECT_TAG, which is not
among the sources: a strong reference has its low two bits 01. -/
def HAS_STRONG_HEAP_OBJECT_TAG (value : Nat) : Bool := value % 4 == 1

/-- Modelled from the spec: the macro HAS_WEAK_HEAP_OBJECT_TAG, which is not
among the sources: a weak reference has its low two bits 11. -/
def HAS_WEAK_HEAP_OBJECT_TAG (value : Nat) : Bool := value % 4 == 3

/-! ## Checks -/

/-- The macro CHECK: fatal when the condition is false, in every build. -/
def CHECK (condition : Bool) : Option Unit := if condition then some () else none

/-- Modelled from the spec: the macro DCHECK of src/base/logging.h, which is
not among the sources: a diagnostic check, enabled in verification builds and
skipped in production builds; where it is enabled, the violation it detects is
fatal, as for CHECK. -/
def DCHECK (cfg : Config) (condition : Bool) : Option Unit :=
  if cfg.debug then CHECK condition else some ()

/-- Modelled from the spec: the macro SLOW_DCHECK, which is not among the
sources: a check that is fatal in a build with cross-checking enabled and
absent otherwise. -/
def SLOW_DCHECK (cfg : Config) (condition : Bool) : Option Unit :=
  if cfg.slowDchecks then CHECK condition else some ()

/-- Modelled from the spec: the macro UNREACHABLE of src/base/logging.h, which
is not among the sources: an unconditional fatal trap, in every build. -/
def UNREACHABLE {α : Type} : Option α := none

/-- Modelled from the spec: the function CheckObjectComparisonAllowed, declared
in tagged-impl.h and defined outside the sources.  Two full pointers may be
compared directly when both originate from the same sub-space, or when one of
them is not a reference to a heap object at all.  The read of the page header
that finds the sub-space is the field inCodeSpace of the configuration. -/
def CheckObjectComparisonAllowed (cfg : Config) (a b : Nat) : Bool :=
  !(HAS_STRONG_HEAP_OBJECT_TAG a && HAS_STRONG_HEAP_OBJECT_TAG b) ||
    (cfg.inCodeSpace a == cfg.inCodeSpace b)

/-! ## TaggedImpl -/

/-- The class template TaggedImpl<kRefType, StorageType>: its only field is the
raw word ptr_. -/
structure TaggedImpl (kRefType : HeapObjectReferenceType) (S : StorageType) where
  ptr_ : Nat
  deriving DecidableEq, Repr

/-- A heap object, named by its address. -/
structure HeapObject where
  address : Nat
  deriving DecidableEq, Repr

/-- A map (the shape metadata of an object), named by its address. -/
structure Map where
  address : Nat
  deriving DecidableEq, Repr

namespace TaggedImpl

variable {kRefType : HeapObjectReferenceType} {S U : StorageType}

/-- The word fits the storage type: what the constructor TaggedImpl(StorageType)
guarantees. -/
def Fits (cfg : Config) (v : TaggedImpl kRefType S) : Prop :=
  v.ptr_ < 2 ^ (8 * S.sizeof cfg)

instance (cfg : Config) (v : TaggedImpl kRefType S) : Decidable (v.Fits cfg) := by
  unfold Fits; infer_instance

/-- The constant kIsFull: sizeof(StorageType) == kSystemPointerSize. -/
def kIsFull (cfg : Config) (S : StorageType) : Bool :=
  S.sizeof cfg == kSystemPointerSize cfg

/-- The constant kCanBeWeak: kRefType == HeapObjectReferenceType::WEAK. -/
def kCanBeWeak (kRefType : HeapObjectReferenceType) : Bool :=
  kRefType == HeapObjectReferenceType.WEAK

/-- The accessor ptr(). -/
def ptr (v : TaggedImpl kRefType S) : Nat := v.ptr_

/-- The operator ==: under V8_EXTERNAL_CODE_SPACE two full pointers are first
checked to be comparable, then the Tagged_t parts are compared. -/
def operator_eq (cfg : Config) (v : TaggedImpl kRefType S) (other : TaggedImpl kRefType U) :
    Option Bool :=
  (if cfg.externalCodeSpace && S.isAddress cfg && U.isAddress cfg then
      SLOW_DCHECK cfg (CheckObjectComparisonAllowed cfg v.ptr_ other.ptr)
    else some ()).bind fun _ =>
  some (static_cast_Tagged_t cfg v.ptr_ == static_cast_Tagged_t cfg other.ptr)

/-- The operator !=. -/
def operator_ne (cfg : Config) (v : TaggedImpl kRefType S) (other : TaggedImpl kRefType U) :
    Option Bool :=
  (if cfg.externalCodeSpace && S.isAddress cfg && U.isAddress cfg then
      SLOW_DCHECK cfg (CheckObjectComparisonAllowed cfg v.ptr_ other.ptr)
    else some ()).bind fun _ =>
  some (static_cast_Tagged_t cfg v.ptr_ != static_cast_Tagged_t cfg other.ptr)

/-- The method SafeEquals; its static_assert admits it for full tagged values
only, so it is defined on Address storage. -/
def SafeEquals (cfg : Config) (v other : TaggedImpl kRefType StorageType.Address) :
    Option Bool :=
  if cfg.externalCodeSpace then some (v.ptr_ == other.ptr)
  else v.operator_eq cfg other

/-- The operator <, for std::set and std::map. -/
def operator_lt (cfg : Config) (v other : TaggedImpl kRefType S) : Option Bool :=
  (if cfg.externalCodeSpace && S.isAddress cfg then
      SLOW_DCHECK cfg (CheckObjectComparisonAllowed cfg v.ptr_ other.ptr)
    else some ()).bind fun _ =>
  some (decide (static_cast_Tagged_t cfg v.ptr_ < static_cast_Tagged_t cfg other.ptr))

/-- The method IsSmi. -/
def IsSmi (v : TaggedImpl kRefType S) : Bool := HAS_SMI_TAG v.ptr_

/-- The method IsCleared. -/
def IsCleared (v : TaggedImpl kRefType S) : Bool :=
  kCanBeWeak kRefType && (static_cast_uint32_t v.ptr_ == kClearedWeakHeapObjectLower32)

/-- The method IsStrongOrWeak. -/
def IsStrongOrWeak (v : TaggedImpl kRefType S) : Bool := !v.IsSmi && !v.IsCleared

/-- The method IsStrong, with its DCHECK. -/
def IsStrong (cfg : Config) (v : TaggedImpl kRefType S) : Option Bool :=
  (DCHECK cfg (kCanBeWeak kRefType ||
      ((!v.IsSmi) == HAS_STRONG_HEAP_OBJECT_TAG v.ptr_))).bind fun _ =>
  some (if kCanBeWeak kRefType then HAS_STRONG_HEAP_OBJECT_TAG v.ptr_ else !v.IsSmi)

/-- The method IsHeapObject. -/
def IsHeapObject (cfg : Config) (v : TaggedImpl kRefType S) : Option Bool := v.IsStrong cfg

/-- The method IsWeakOrCleared. -/
def IsWeakOrCleared (v : TaggedImpl kRefType S) : Bool :=
  kCanBeWeak kRefType && HAS_WEAK_HEAP_OBJECT_TAG v.ptr_

/-- The method IsWeak. -/
def IsWeak (v : TaggedImpl kRefType S) : Bool := v.IsWeakOrCleared && !v.IsCleared

/-- The method IsObject. -/
def IsObject (v : TaggedImpl kRefType S) : Bool := !v.IsWeakOrCleared

/-- The method template cast<T>: T::cast is the parameter castT. -/
def cast {T : Type} (cfg : Config) (castT : Nat → Option T) (v : TaggedImpl kRefType S) :
    Option T :=
  (CHECK (kIsFull cfg S)).bind fun _ =>
  (DCHECK cfg (!HAS_WEAK_HEAP_OBJECT_TAG v.ptr_)).bind fun _ =>
  castT v.ptr_

/-- The word of a value read as a signed integer of the width of its storage
(two's complement). -/
def signedWord (cfg : Config) (v : TaggedImpl kRefType S) : Int :=
  if v.ptr_ % 2 ^ (8 * S.sizeof cfg) < 2 ^ (8 * S.sizeof cfg - 1) then
    ((v.ptr_ % 2 ^ (8 * S.sizeof cfg) : Nat) : Int)
  else ((v.ptr_ % 2 ^ (8 * S.sizeof cfg) : Nat) : Int) - 2 ^ (8 * S.sizeof cfg)

/-- Modelled from the spec: the encoding of a small integer (Smi::FromInt of
src/objects/smi.h, which is not among the sources): the value is held inline in
the tagged word, above the tag and shift bits, whose number smiShift
(kSmiTagSize + kSmiShiftSize) is an argument; the low bits are 0. -/
def FromSmi (cfg : Config) (kRefType : HeapObjectReferenceType) (S : StorageType)
    (smiShift : Nat) (value : Int) : TaggedImpl kRefType S :=
  ⟨(value * 2 ^ smiShift % 2 ^ (8 * S.sizeof cfg)).toNat⟩

/-- Modelled from the spec: the method ToSmi(Smi*), declared in tagged-impl.h
with its body outside the sources: for a word with the small-integer tag it
yields the integer held above the tag and shift bits, and for any other word
it returns false (none). -/
def ToSmi (cfg : Config) (smiShift : Nat) (v : TaggedImpl kRefType S) : Option Int :=
  if v.IsSmi then some (v.signedWord cfg / 2 ^ smiShift) else none

/-- Modelled from the spec: the accessor GetHeapObjectIfStrong, declared in
tagged-impl.h with its body outside the sources: it returns the referent and
succeeds only if IsStrong holds, and reports failure otherwise.  The inner
option is the pair of the returned bool and the result; isolate is the
decompression context, which turns the stored word into the referent. -/
def GetHeapObjectIfStrong (cfg : Config) (isolate : Nat → HeapObject)
    (v : TaggedImpl kRefType S) : Option (Option HeapObject) :=
  (v.IsStrong cfg).bind fun strong =>
  some (if strong then some (isolate v.ptr_) else none)

/-- Modelled from the spec: the accessor GetHeapObjectIfWeak, declared in
tagged-impl.h with its body outside the sources: it returns the referent and
succeeds only if IsWeak holds, and reports failure otherwise. -/
def GetHeapObjectIfWeak (isolate : Nat → HeapObject)
    (v : TaggedImpl kRefType S) : Option (Option HeapObject) :=
  some (if v.IsWeak then some (isolate v.ptr_) else none)

/-- Modelled from the spec: the accessor GetHeapObject(result), declared in
tagged-impl.h with its body outside the sources: it returns the referent and
succeeds only if IsStrongOrWeak holds, and reports failure otherwise. -/
def GetHeapObject (isolate : Nat → HeapObject)
    (v : TaggedImpl kRefType S) : Option (Option HeapObject) :=
  some (if v.IsStrongOrWeak then some (isolate v.ptr_) else none)

end TaggedImpl

/-! ## Object visitor -/

/-- Modelled from the spec: the entry points of ObjectVisitor, which is not
among the sources: a contiguous range of strong pointer slots, a contiguous
range of possibly-weak slots, a key/value pair of slots with ephemeron
semantics, and a single slot that may hold an indirect pointer.  Slots are
named by their byte offset in the host object. -/
inductive VisitorCall
  | strongRange (host : HeapObject) (start end_ : Int)
  | maybeWeakRange (host : HeapObject) (start end_ : Int)
  | ephemeron (host : HeapObject) (index : Int) (key value : Int)
  | maybeIndirect (host : HeapObject) (slot : Int) (mode : Nat)
  deriving DecidableEq, Repr

/-- The state of a stateful object visitor: the calls it has received, the
oldest first. -/
abbrev ObjectVisitor := List VisitorCall

/-- The slots of the contiguous range from start up to end_: the offsets
start, start + kTaggedSize, ... that lie below end_. -/
def rangeSlots (cfg : Config) (start end_ : Int) : List Int :=
  (List.range ((end_ - start + (kTaggedSize cfg : Int) - 1) / (kTaggedSize cfg : Int)).toNat).map
    (fun (i : Nat) => start + (i : Int) * (kTaggedSize cfg : Int))

/-- The slots a call reports through the strong-pointer entry point. -/
def VisitorCall.strongSlots (cfg : Config) : VisitorCall → List Int
  | .strongRange _ start end_ => rangeSlots cfg start end_
  | _ => []

/-- The slots a call reports through the possibly-weak entry point. -/
def VisitorCall.maybeWeakSlots (cfg : Config) : VisitorCall → List Int
  | .maybeWeakRange _ start end_ => rangeSlots cfg start end_
  | _ => []

/-- Whether a call came in through the strong-pointer entry point. -/
def VisitorCall.isStrongRange : VisitorCall → Bool
  | .strongRange _ _ _ => true
  | _ => false

/-- Whether a call came in through the possibly-weak entry point. -/
def VisitorCall.isMaybeWeakRange : VisitorCall → Bool
  | .maybeWeakRange _ _ _ => true
  | _ => false

/-- The slots a call reports, through whichever entry point. -/
def VisitorCall.slots (cfg : Config) : VisitorCall → List Int
  | .strongRange _ start end_ => rangeSlots cfg start end_
  | .maybeWeakRange _ start end_ => rangeSlots cfg start end_
  | .ephemeron _ _ key value => [key, value]
  | .maybeIndirect _ slot _ => [slot]

/-- All slots reported by a sequence of calls, in order, with repetitions. -/
def reportedSlots (cfg : Config) (calls : List VisitorCall) : List Int :=
  calls.flatMap (VisitorCall.slots cfg)

/-- All slots reported through the strong-pointer entry point by a sequence of
calls, in order, with repetitions. -/
def strongSlots (cfg : Config) (calls : List VisitorCall) : List Int :=
  calls.flatMap (VisitorCall.strongSlots cfg)

/-- All slots reported through the possibly-weak entry point by a sequence of
calls, in order, with repetitions. -/
def maybeWeakSlots (cfg : Config) (calls : List VisitorCall) : List Int :=
  calls.flatMap (VisitorCall.maybeWeakSlots cfg)

/-! ## Body descriptors -/

namespace BodyDescriptorBase

/-- Modelled from the spec: BodyDescriptorBase::IteratePointers, declared in
objects-body-descriptors.h with its body outside the sources: the range is
handed to the visitor entry point for a contiguous range of strong pointer
slots. -/
def IteratePointers (obj : HeapObject) (start_offset end_offset : Int)
    (v : ObjectVisitor) : ObjectVisitor :=
  v ++ [VisitorCall.strongRange obj start_offset end_offset]

/-- Modelled from the spec: BodyDescriptorBase::IterateMaybeWeakPointers,
declared in objects-body-descriptors.h with its body outside the sources: the
range is handed to the visitor entry point for a contiguous range of
possibly-weak slots. -/
def IterateMaybeWeakPointers (obj : HeapObject) (start_offset end_offset : Int)
    (v : ObjectVisitor) : ObjectVisitor :=
  v ++ [VisitorCall.maybeWeakRange obj start_offset end_offset]

/-- Modelled from the spec: BodyDescriptorBase::IterateEphemeron, declared in
objects-body-descriptors.h with its body outside the sources: the key and value
slots are handed, as a pair, to the ephemeron entry point of the visitor. -/
def IterateEphemeron (obj : HeapObject) (index key_offset value_offset : Int)
    (v : ObjectVisitor) : ObjectVisitor :=
  v ++ [VisitorCall.ephemeron obj index key_offset value_offset]

end BodyDescriptorBase

/-- The body descriptor class templates, with their template arguments.  The
size functions of the two flexible descriptors are declared only and supplied
per shape, so they are arguments. -/
inductive BodyDescriptor
  | FixedRangeBodyDescriptor (start_offset end_offset : Int)
  | FixedBodyDescriptor (start_offset end_offset size : Int)
  | SuffixRangeBodyDescriptor (start_offset : Int)
  | FlexibleBodyDescriptor (start_offset : Int) (sizeOf : Map → HeapObject → Int)
  | SuffixRangeWeakBodyDescriptor (start_offset : Int)
  | FlexibleWeakBodyDescriptor (start_offset : Int) (sizeOf : Map → HeapObject → Int)
  | DataOnlyBodyDescriptor
  | SubclassBodyDescriptor (parent child : BodyDescriptor)

namespace BodyDescriptor

/-- The static member kStartOffset, for the descriptors that declare one. -/
def kStartOffset : BodyDescriptor → Option Int
  | FixedRangeBodyDescriptor start_offset _ => some start_offset
  | FixedBodyDescriptor start_offset _ _ => some start_offset
  | SuffixRangeBodyDescriptor start_offset => some start_offset
  | FlexibleBodyDescriptor start_offset _ => some start_offset
  | SuffixRangeWeakBodyDescriptor start_offset => some start_offset
  | FlexibleWeakBodyDescriptor start_offset _ => some start_offset
  | DataOnlyBodyDescriptor => none
  | SubclassBodyDescriptor _ _ => none

/-- The static member kEndOffset, for the descriptors that declare one. -/
def kEndOffset : BodyDescriptor → Option Int
  | FixedRangeBodyDescriptor _ end_offset => some end_offset
  | FixedBodyDescriptor _ end_offset _ => some end_offset
  | _ => none

/-- The static member kSize, for the descriptors that declare one. -/
def kSize : BodyDescriptor → Option Int
  | FixedBodyDescriptor _ _ size => some size
  | _ => none

/-- The static_assert of SubclassBodyDescriptor:
ParentBodyDescriptor::kSize <= ChildBodyDescriptor::kStartOffset.  It does not
compile either when one of the two members is missing. -/
def static_assert_parent_before_child (parent child : BodyDescriptor) : Bool :=
  match parent.kSize, child.kStartOffset with
  | some size, some start_offset => decide (size ≤ start_offset)
  | _, _ => false

/-- The descriptor can be instantiated: every static_assert in it passes. -/
def instantiates : BodyDescriptor → Bool
  | SubclassBodyDescriptor parent child =>
      parent.instantiates && child.instantiates &&
        static_assert_parent_before_child parent child
  | _ => true

/-- The static method IsValidSlot. -/
def IsValidSlot : BodyDescriptor → Map → HeapObject → Int → Bool
  | FixedRangeBodyDescriptor kStart kEnd, _, _, offset =>
      decide (offset ≥ kStart) && decide (offset < kEnd)
  | FixedBodyDescriptor kStart kEnd _, _, _, offset =>
      decide (offset ≥ kStart) && decide (offset < kEnd)
  | SuffixRangeBodyDescriptor kStart, _, _, offset => decide (offset ≥ kStart)
  | FlexibleBodyDescriptor kStart _, _, _, offset => decide (offset ≥ kStart)
  | SuffixRangeWeakBodyDescriptor kStart, _, _, offset => decide (offset ≥ kStart)
  | FlexibleWeakBodyDescriptor kStart _, _, _, offset => decide (offset ≥ kStart)
  | DataOnlyBodyDescriptor, _, _, _ => false
  | SubclassBodyDescriptor parent child, map, obj, offset =>
      parent.IsValidSlot map obj offset || child.IsValidSlot map obj offset

/-- The overload of IterateBody without object_size; none for the descriptors
that do not have it. -/
def IterateBodyNoSize : BodyDescriptor → Map → HeapObject → ObjectVisitor → Option ObjectVisitor
  | FixedRangeBodyDescriptor start_offset end_offset, _, obj, v =>
      some (BodyDescriptorBase.IteratePointers obj start_offset end_offset v)
  | FixedBodyDescriptor start_offset end_offset _, _, obj, v =>
      some (BodyDescriptorBase.IteratePointers obj start_offset end_offset v)
  | SubclassBodyDescriptor parent child, map, obj, v =>
      (parent.IterateBodyNoSize map obj v).bind fun v1 => child.IterateBodyNoSize map obj v1
  | _, _, _, _ => none

/-- The static method IterateBody(map, obj, object_size, v); the result is the
visitor after the calls. -/
def IterateBody : BodyDescriptor → Map → HeapObject → Int → ObjectVisitor → ObjectVisitor
  | FixedRangeBodyDescriptor start_offset end_offset, _, obj, _, v =>
      BodyDescriptorBase.IteratePointers obj start_offset end_offset v
  | FixedBodyDescriptor start_offset end_offset _, _, obj, _, v =>
      BodyDescriptorBase.IteratePointers obj start_offset end_offset v
  | SuffixRangeBodyDescriptor start_offset, _, obj, object_size, v =>
      BodyDescriptorBase.IteratePointers obj start_offset object_size v
  | FlexibleBodyDescriptor start_offset _, _, obj, object_size, v =>
      BodyDescriptorBase.IteratePointers obj start_offset object_size v
  | SuffixRangeWeakBodyDescriptor start_offset, _, obj, object_size, v =>
      BodyDescriptorBase.IterateMaybeWeakPointers obj start_offset object_size v
  | FlexibleWeakBodyDescriptor start_offset _, _, obj, object_size, v =>
      BodyDescriptorBase.IterateMaybeWeakPointers obj start_offset object_size v
  | DataOnlyBodyDescriptor, _, _, _, v => v
  | SubclassBodyDescriptor parent child, map, obj, object_size, v =>
      child.IterateBody map obj object_size (parent.IterateBody map obj object_size v)

/-- The static method SizeOf; the result none is the fatal outcome. -/
def SizeOf : BodyDescriptor → Map → HeapObject → Option Int
  | FixedRangeBodyDescriptor _ _, _, _ => UNREACHABLE
  | FixedBodyDescriptor _ _ size, _, _ => some size
  | SuffixRangeBodyDescriptor _, _, _ => UNREACHABLE
  | FlexibleBodyDescriptor _ sizeOf, map, object => some (sizeOf map object)
  | SuffixRangeWeakBodyDescriptor _, _, _ => UNREACHABLE
  | FlexibleWeakBodyDescriptor _ sizeOf, map, object => some (sizeOf map object)
  | DataOnlyBodyDescriptor, _, _ => UNREACHABLE
  | SubclassBodyDescriptor _ child, map, object => child.SizeOf map object

/-- The start offsets of the pointer ranges of a descriptor, those of the parts
of a composite included, are multiples of the size of a tagged field. -/
def slotAligned (cfg : Config) : BodyDescriptor → Bool
  | FixedRangeBodyDescriptor start_offset _ => decide ((kTaggedSize cfg : Int) ∣ start_offset)
  | FixedBodyDescriptor start_offset _ _ => decide ((kTaggedSize cfg : Int) ∣ start_offset)
  | SuffixRangeBodyDescriptor start_offset => decide ((kTaggedSize cfg : Int) ∣ start_offset)
  | FlexibleBodyDescriptor start_offset _ => decide ((kTaggedSize cfg : Int) ∣ start_offset)
  | SuffixRangeWeakBodyDescriptor start_offset => decide ((kTaggedSize cfg : Int) ∣ start_offset)
  | FlexibleWeakBodyDescriptor start_offset _ => decide ((kTaggedSize cfg : Int) ∣ start_offset)
  | DataOnlyBodyDescriptor => true
  | SubclassBodyDescriptor parent child => parent.slotAligned cfg && child.slotAligned cfg

/-- The instantiation SubclassBodyDescriptor<Parent, Child>: its static_assert
is checked when the class is instantiated, before any of its methods can be
called; none when the assertion rejects the pair. -/
def instantiateSubclass (parent child : BodyDescriptor) : Option BodyDescriptor :=
  if static_assert_parent_before_child parent child then
    some (SubclassBodyDescriptor parent child)
  else none

end BodyDescriptor

/-! ## Sample configurations -/

/-- A build with DCHECKs, on a 64-bit target without pointer compression. -/
def debugConfig : Config :=
  { pointer64 := true, compressPointers := false, externalCodeSpace := false,
    debug := true, slowDchecks := false, inCodeSpace := fun _ => false }

/-- A 64-bit build without pointer compression: tagged fields are 8 bytes. -/
def config64 : Config :=
  { pointer64 := true, compressPointers := false, externalCodeSpace := false,
    debug := false, slowDchecks := false, inCodeSpace := fun _ => false }

/-- A 64-bit build with pointer compression: tagged fields are 4 bytes. -/
def compressedConfig : Config :=
  { pointer64 := true, compressPointers := true, externalCodeSpace := true,
    debug := false, slowDchecks := false, inCodeSpace := fun _ => false }

/-- A 64-bit build with pointer compression, the external code space and slow
DCHECKs, in which the words from 2^32 on lie in the code sub-space. -/
def crossCheckConfig : Config :=
  { pointer64 := true, compressPointers := true, externalCodeSpace := true,
    debug := true, slowDchecks := true, inCodeSpace := fun a => decide (2 ^ 32 ≤ a) }

/-! ## Properties of the tag predicates -/

/-- C1: for a weak-capable TaggedImpl of either storage type and every bit
pattern, IsStrong returns, and exactly one of IsSmi, IsStrong, IsWeak and
IsCleared is true. -/
theorem weak_capable_exactly_one (cfg : Config) (S : StorageType)
    (v : TaggedImpl HeapObjectReferenceType.WEAK S) :
    ∃ s, v.IsStrong cfg = some s ∧
      [v.IsSmi, s, v.IsWeak, v.IsCleared].count true = 1 := by
  refine ⟨HAS_STRONG_HEAP_OBJECT_TAG v.ptr_, ?_, ?_⟩
  · simp [TaggedImpl.IsStrong, TaggedImpl.kCanBeWeak, DCHECK, CHECK]
  · have h4 : v.ptr_ % 4 < 4 := Nat.mod_lt _ (by norm_num)
    have h2 : v.ptr_ % 2 = v.ptr_ % 4 % 2 := by omega
    have h32 : v.ptr_ % 4 = v.ptr_ % 4294967296 % 4 := by omega
    simp only [TaggedImpl.IsSmi, TaggedImpl.IsWeak, TaggedImpl.IsWeakOrCleared,
      TaggedImpl.IsCleared, TaggedImpl.kCanBeWeak, HAS_SMI_TAG, HAS_STRONG_HEAP_OBJECT_TAG,
      HAS_WEAK_HEAP_OBJECT_TAG, static_cast_uint32_t, kClearedWeakHeapObjectLower32, h2]
    norm_num only
    by_cases hc : v.ptr_ % 4294967296 = 3
    · have : v.ptr_ % 4 = 3 := by omega
      simp [hc, this]
    · interval_cases h : v.ptr_ % 4 <;> simp [hc]

/-- C2, as stated, fails: in a build with DCHECKs, on the non-weak value with
bit pattern 3, IsSmi is false and IsStrong does not return true: its DCHECK
fails. -/
theorem non_weak_exactly_one_fails :
    ¬ (∃ s, (⟨3⟩ : TaggedImpl HeapObjectReferenceType.STRONG StorageType.Address).IsStrong
          debugConfig = some s ∧
        [(⟨3⟩ : TaggedImpl HeapObjectReferenceType.STRONG StorageType.Address).IsSmi, s].count
          true = 1) := by
  rintro ⟨s, hs, -⟩
  have hnone : (⟨3⟩ : TaggedImpl HeapObjectReferenceType.STRONG StorageType.Address).IsStrong
      debugConfig = none := by decide
  rw [hnone] at hs
  cases hs

/-- C2, amended: for a non-weak-capable TaggedImpl and every bit pattern,
IsWeak, IsCleared and IsWeakOrCleared are false; IsStrong fails its DCHECK
exactly in a build with DCHECKs on a pattern whose low two bits are 11, and
otherwise returns, and then exactly one of IsSmi and IsStrong is true. -/
theorem non_weak_classification (cfg : Config) (S : StorageType)
    (v : TaggedImpl HeapObjectReferenceType.STRONG S) :
    v.IsWeak = false ∧ v.IsCleared = false ∧ v.IsWeakOrCleared = false ∧
    ((cfg.debug = true ∧ v.ptr_ % 4 = 3 ∧ v.IsStrong cfg = none) ∨
     ((cfg.debug = false ∨ v.ptr_ % 4 ≠ 3) ∧
        ∃ s, v.IsStrong cfg = some s ∧ [v.IsSmi, s].count true = 1)) := by
  have h4 : v.ptr_ % 4 < 4 := Nat.mod_lt _ (by norm_num)
  have h2 : v.ptr_ % 2 = v.ptr_ % 4 % 2 := by omega
  refine ⟨by simp [TaggedImpl.IsWeak, TaggedImpl.IsWeakOrCleared, TaggedImpl.kCanBeWeak],
    by simp [TaggedImpl.IsCleared, TaggedImpl.kCanBeWeak],
    by simp [TaggedImpl.IsWeakOrCleared, TaggedImpl.kCanBeWeak], ?_⟩
  simp only [TaggedImpl.IsStrong, TaggedImpl.IsSmi, TaggedImpl.kCanBeWeak, DCHECK, CHECK,
    HAS_SMI_TAG, HAS_STRONG_HEAP_OBJECT_TAG, h2]
  cases hd : cfg.debug <;> interval_cases h : v.ptr_ % 4 <;> simp

/-! ## Properties of the body descriptors -/

/-- A slot that a descriptor with a kStartOffset accepts is not below it. -/
theorem BodyDescriptor.kStartOffset_le_of_IsValidSlot (d : BodyDescriptor) (start : Int)
    (map : Map) (obj : HeapObject) (offset : Int) (hstart : d.kStartOffset = some start)
    (hvalid : d.IsValidSlot map obj offset = true) : start ≤ offset := by
  cases d <;>
    simp_all [BodyDescriptor.kStartOffset, BodyDescriptor.IsValidSlot]

/-- C3, as stated, fails: the composite of the parent FixedBodyDescriptor<8, 32, 16>
and the child FixedRangeBodyDescriptor<16, 24> passes the static_assert
(16 <= 16), and offset 16 is a valid slot of both. -/
theorem subclass_ranges_overlap :
    (BodyDescriptor.SubclassBodyDescriptor (BodyDescriptor.FixedBodyDescriptor 8 32 16)
        (BodyDescriptor.FixedRangeBodyDescriptor 16 24)).instantiates = true ∧
    (BodyDescriptor.FixedBodyDescriptor 8 32 16).IsValidSlot ⟨0⟩ ⟨0⟩ 16 = true ∧
    (BodyDescriptor.FixedRangeBodyDescriptor 16 24).IsValidSlot ⟨0⟩ ⟨0⟩ 16 = true := by
  decide

/-- C3, amended: when the composite passes its static_assert and the pointer
range of the parent ends at or before the fixed size of the parent, no offset
is a valid slot of both the parent and the child. -/
theorem subclass_ranges_disjoint (parent child : BodyDescriptor)
    (hassert : (BodyDescriptor.SubclassBodyDescriptor parent child).instantiates = true)
    (hparent : ∀ e size, parent.kEndOffset = some e → parent.kSize = some size → e ≤ size)
    (map : Map) (obj : HeapObject) (offset : Int) :
    ¬ (parent.IsValidSlot map obj offset = true ∧ child.IsValidSlot map obj offset = true) := by
  rintro ⟨hp, hc⟩
  simp only [BodyDescriptor.instantiates, Bool.and_eq_true,
    BodyDescriptor.static_assert_parent_before_child] at hassert
  obtain ⟨-, hle⟩ := hassert
  cases hsize : parent.kSize with
  | none => simp [hsize] at hle
  | some size =>
    cases hstart : child.kStartOffset with
    | none => simp [hsize, hstart] at hle
    | some start =>
      simp only [hsize, hstart, decide_eq_true_eq] at hle
      have hlow := child.kStartOffset_le_of_IsValidSlot start map obj offset hstart hc
      cases parent <;> simp [BodyDescriptor.kSize] at hsize
      rename_i s e sz
      have hend := hparent e sz rfl (by simp [BodyDescriptor.kSize])
      simp [BodyDescriptor.IsValidSlot] at hp
      omega

/-- C3, amended, at the parent FixedBodyDescriptor<8, 16, 16> and the child
FixedRangeBodyDescriptor<16, 24>, for offset 16. -/
theorem subclass_ranges_disjoint_witness :
    (BodyDescriptor.SubclassBodyDescriptor (BodyDescriptor.FixedBodyDescriptor 8 16 16)
        (BodyDescriptor.FixedRangeBodyDescriptor 16 24)).instantiates = true ∧
    ¬ ((BodyDescriptor.FixedBodyDescriptor 8 16 16).IsValidSlot ⟨0⟩ ⟨0⟩ 16 = true ∧
       (BodyDescriptor.FixedRangeBodyDescriptor 16 24).IsValidSlot ⟨0⟩ ⟨0⟩ 16 = true) :=
  ⟨by decide,
   subclass_ranges_disjoint (BodyDescriptor.FixedBodyDescriptor 8 16 16)
     (BodyDescriptor.FixedRangeBodyDescriptor 16 24) (by decide)
     (by
       intro e size he hs
       simp only [BodyDescriptor.kEndOffset, BodyDescriptor.kSize, Option.some.injEq] at he hs
       omega)
     ⟨0⟩ ⟨0⟩ 16⟩

/-- C5: IsValidSlot of a fixed-range descriptor is true exactly for the offsets
from start up to, and without, end, whatever the map and the object; for the
range from 16 to 32 it is true at 16 and 24 and false at 32 and 8. -/
theorem fixed_range_IsValidSlot_iff :
    (∀ (start_offset end_offset : Int) (map : Map) (obj : HeapObject) (offset : Int),
      (BodyDescriptor.FixedRangeBodyDescriptor start_offset end_offset).IsValidSlot map obj offset
          = true ↔ (start_offset ≤ offset ∧ offset < end_offset)) ∧
    (BodyDescriptor.FixedRangeBodyDescriptor 16 32).IsValidSlot ⟨0⟩ ⟨0⟩ 16 = true ∧
    (BodyDescriptor.FixedRangeBodyDescriptor 16 32).IsValidSlot ⟨0⟩ ⟨0⟩ 24 = true ∧
    (BodyDescriptor.FixedRangeBodyDescriptor 16 32).IsValidSlot ⟨0⟩ ⟨0⟩ 32 = false ∧
    (BodyDescriptor.FixedRangeBodyDescriptor 16 32).IsValidSlot ⟨0⟩ ⟨0⟩ 8 = false := by
  refine ⟨?_, by decide, by decide, by decide, by decide⟩
  intro start_offset end_offset map obj offset
  simp [BodyDescriptor.IsValidSlot]

/-- The size of a tagged field is 4 or 8 bytes. -/
theorem kTaggedSize_cases (cfg : Config) : kTaggedSize cfg = 4 ∨ kTaggedSize cfg = 8 := by
  unfold kTaggedSize kSystemPointerSize
  cases cfg.compressPointers <;> cases cfg.pointer64 <;> simp

/-- Membership in the slots of a range. -/
theorem mem_rangeSlots (cfg : Config) (start end_ o : Int) :
    o ∈ rangeSlots cfg start end_ ↔
      ∃ i : Nat, o = start + (i : Int) * (kTaggedSize cfg : Int) ∧ o < end_ := by
  unfold rangeSlots
  simp only [List.mem_map, List.mem_range]
  rcases kTaggedSize_cases cfg with hk | hk <;> rw [hk] <;>
  · constructor
    · rintro ⟨i, hi, rfl⟩
      exact ⟨i, rfl, by push_cast at hi ⊢; omega⟩
    · rintro ⟨i, rfl, hlt⟩
      exact ⟨i, by push_cast at hlt ⊢; omega, rfl⟩

/-- No slot occurs twice in the slots of a range. -/
theorem nodup_rangeSlots (cfg : Config) (start end_ : Int) :
    (rangeSlots cfg start end_).Nodup := by
  unfold rangeSlots
  refine List.Nodup.map ?_ (List.nodup_range _)
  intro i j hij
  rcases kTaggedSize_cases cfg with hk | hk <;> rw [hk] at hij <;>
  · simp only at hij
    push_cast at hij
    omega

/-- C4: IterateBody of a fixed-range descriptor with a slot-aligned start
makes one visitor call, through the strong-pointer entry point, for the range
from start to end: the slots reported are the offsets start, start + slot, ...
below end, that is the slot-aligned offsets from start up to end, each once,
none through the possibly-weak entry point, and the calls do not depend on
object_size. -/
theorem fixed_range_IterateBody (cfg : Config) (start_offset end_offset : Int)
    (haligned : (kTaggedSize cfg : Int) ∣ start_offset)
    (map : Map) (obj : HeapObject) (object_size : Int) (v : ObjectVisitor) :
    (BodyDescriptor.FixedRangeBodyDescriptor start_offset end_offset).IterateBody
        map obj object_size v = v ++ [VisitorCall.strongRange obj start_offset end_offset] ∧
    [VisitorCall.strongRange obj start_offset end_offset].all VisitorCall.isStrongRange = true ∧
    strongSlots cfg [VisitorCall.strongRange obj start_offset end_offset]
      = rangeSlots cfg start_offset end_offset ∧
    (strongSlots cfg [VisitorCall.strongRange obj start_offset end_offset]).Nodup ∧
    (∀ o : Int, o ∈ strongSlots cfg [VisitorCall.strongRange obj start_offset end_offset] ↔
      (start_offset ≤ o ∧ o < end_offset ∧ (kTaggedSize cfg : Int) ∣ o)) ∧
    maybeWeakSlots cfg [VisitorCall.strongRange obj start_offset end_offset] = [] ∧
    (∀ other_size : Int,
      (BodyDescriptor.FixedRangeBodyDescriptor start_offset end_offset).IterateBody
          map obj other_size v =
        (BodyDescriptor.FixedRangeBodyDescriptor start_offset end_offset).IterateBody
          map obj object_size v) := by
  have hslots : strongSlots cfg [VisitorCall.strongRange obj start_offset end_offset]
      = rangeSlots cfg start_offset end_offset := by
    simp [strongSlots, VisitorCall.strongSlots]
  refine ⟨rfl, by simp [VisitorCall.isStrongRange], hslots, ?_, ?_, ?_, fun _ => rfl⟩
  · rw [hslots]; exact nodup_rangeSlots cfg start_offset end_offset
  · intro o
    rw [hslots, mem_rangeSlots]
    rcases kTaggedSize_cases cfg with hk | hk <;> rw [hk] at haligned ⊢ <;>
    · constructor
      · rintro ⟨i, rfl, hlt⟩
        push_cast at haligned hlt ⊢
        refine ⟨by omega, hlt, ?_⟩
        omega
      · rintro ⟨hge, hlt, hdvd⟩
        push_cast at haligned hdvd ⊢
        obtain ⟨a, rfl⟩ := haligned
        obtain ⟨b, rfl⟩ := hdvd
        refine ⟨(b - a).toNat, ?_, hlt⟩
        omega
  · simp [maybeWeakSlots, VisitorCall.maybeWeakSlots]

/-- C4 at the range from 16 to 32 with 8-byte slots: the slots reported are
16 and 24. -/
theorem fixed_range_IterateBody_witness :
    ((kTaggedSize config64 : Int) ∣ 16) ∧
    strongSlots config64 [VisitorCall.strongRange ⟨0⟩ 16 32] = [16, 24] ∧
    (BodyDescriptor.FixedRangeBodyDescriptor 16 32).IterateBody ⟨0⟩ ⟨0⟩ 32 []
      = [VisitorCall.strongRange ⟨0⟩ 16 32] ∧
    (strongSlots config64 [VisitorCall.strongRange ⟨0⟩ 16 32]).Nodup :=
  ⟨by decide, by decide,
   (fixed_range_IterateBody config64 16 32 (by decide) ⟨0⟩ ⟨0⟩ 32 []).1,
   (fixed_range_IterateBody config64 16 32 (by decide) ⟨0⟩ ⟨0⟩ 32 []).2.2.2.1⟩

/-! ## The cleared sentinel, the accessors and the comparisons -/

/-- C6, as stated, fails for full-width storage: on a 64-bit target the
weak-capable full-width value with bit pattern 2^32 + 3 fits its storage and is
cleared, and its bit pattern is not the sentinel 3. -/
theorem IsCleared_not_iff_sentinel :
    (⟨2 ^ 32 + 3⟩ : TaggedImpl HeapObjectReferenceType.WEAK StorageType.Address).Fits config64 ∧
    ¬ ((⟨2 ^ 32 + 3⟩ : TaggedImpl HeapObjectReferenceType.WEAK StorageType.Address).IsCleared
          = true ↔
        (⟨2 ^ 32 + 3⟩ : TaggedImpl HeapObjectReferenceType.WEAK StorageType.Address).ptr_
          = kClearedWeakHeapObjectLower32) := by
  decide

/-- C6, amended: a value that fits its storage is cleared exactly when its
family is weak-capable and the lower 32 bits of its bit pattern are the
sentinel 3; when the storage is 4 bytes wide, that is when the whole bit
pattern is 3; a non-weak-capable value is never cleared. -/
theorem IsCleared_iff_lower32 (cfg : Config) (kRefType : HeapObjectReferenceType)
    (S : StorageType) (v : TaggedImpl kRefType S) (hfits : v.Fits cfg) :
    (v.IsCleared = true ↔
      (kRefType = HeapObjectReferenceType.WEAK ∧
        v.ptr_ % 2 ^ 32 = kClearedWeakHeapObjectLower32)) ∧
    (S.sizeof cfg = 4 →
      (v.IsCleared = true ↔
        (kRefType = HeapObjectReferenceType.WEAK ∧ v.ptr_ = kClearedWeakHeapObjectLower32))) ∧
    (kRefType = HeapObjectReferenceType.STRONG → v.IsCleared = false) := by
  have hiff : v.IsCleared = true ↔
      (kRefType = HeapObjectReferenceType.WEAK ∧
        v.ptr_ % 2 ^ 32 = kClearedWeakHeapObjectLower32) := by
    cases kRefType <;>
      simp [TaggedImpl.IsCleared, TaggedImpl.kCanBeWeak, static_cast_uint32_t]
  refine ⟨hiff, ?_, ?_⟩
  · intro hsize
    have hlt : v.ptr_ < 2 ^ 32 := by
      have := hfits
      unfold TaggedImpl.Fits at this
      rw [hsize] at this
      exact this
    rw [hiff, Nat.mod_eq_of_lt hlt]
  · rintro rfl
    simp [TaggedImpl.IsCleared, TaggedImpl.kCanBeWeak]

/-- C6, amended, at the compressed weak-capable value with bit pattern 3. -/
theorem IsCleared_iff_lower32_witness :
    (⟨3⟩ : TaggedImpl HeapObjectReferenceType.WEAK StorageType.Tagged_t).Fits compressedConfig ∧
    ((⟨3⟩ : TaggedImpl HeapObjectReferenceType.WEAK StorageType.Tagged_t).IsCleared = true ↔
      (HeapObjectReferenceType.WEAK = HeapObjectReferenceType.WEAK ∧
        (⟨3⟩ : TaggedImpl HeapObjectReferenceType.WEAK StorageType.Tagged_t).ptr_ % 2 ^ 32
          = kClearedWeakHeapObjectLower32)) :=
  ⟨by decide,
   (IsCleared_iff_lower32 compressedConfig HeapObjectReferenceType.WEAK StorageType.Tagged_t
      ⟨3⟩ (by decide)).1⟩

/-- C7: each accessor succeeds exactly when its predicate holds:
GetHeapObjectIfStrong when IsStrong returns true, GetHeapObjectIfWeak when
IsWeak is true, GetHeapObject when IsStrongOrWeak is true.  GetHeapObjectIfWeak
returns false on every cleared value and on every strong value, and
GetHeapObjectIfStrong returns false on every weak value. -/
theorem accessors_succeed_iff_predicate (cfg : Config) (kRefType : HeapObjectReferenceType)
    (S : StorageType) (isolate : Nat → HeapObject) (v : TaggedImpl kRefType S) :
    ((∃ result, v.GetHeapObjectIfStrong cfg isolate = some (some result)) ↔
        v.IsStrong cfg = some true) ∧
    ((∃ result, v.GetHeapObjectIfWeak isolate = some (some result)) ↔ v.IsWeak = true) ∧
    ((∃ result, v.GetHeapObject isolate = some (some result)) ↔ v.IsStrongOrWeak = true) ∧
    (v.IsCleared = true → v.GetHeapObjectIfWeak isolate = some none) ∧
    (v.IsStrong cfg = some true → v.GetHeapObjectIfWeak isolate = some none) ∧
    (v.IsWeak = true → v.GetHeapObjectIfStrong cfg isolate = some none) := by
  have h4 : v.ptr_ % 4 < 4 := Nat.mod_lt _ (by norm_num)
  refine ⟨?_, ?_, ?_, ?_, ?_, ?_⟩
  · unfold TaggedImpl.GetHeapObjectIfStrong
    cases hs : v.IsStrong cfg with
    | none => simp
    | some s => cases s <;> simp
  · unfold TaggedImpl.GetHeapObjectIfWeak
    cases v.IsWeak <;> simp
  · unfold TaggedImpl.GetHeapObject
    cases v.IsStrongOrWeak <;> simp
  · intro hc
    simp [TaggedImpl.GetHeapObjectIfWeak, TaggedImpl.IsWeak, hc]
  · intro hs
    have hweak : v.IsWeak = false := by
      cases kRefType
      · simp only [TaggedImpl.IsStrong, TaggedImpl.kCanBeWeak, DCHECK, CHECK,
          HAS_STRONG_HEAP_OBJECT_TAG] at hs
        have h1 : v.ptr_ % 4 = 1 := by simpa using hs
        simp [TaggedImpl.IsWeak, TaggedImpl.IsWeakOrCleared, HAS_WEAK_HEAP_OBJECT_TAG, h1]
      · simp [TaggedImpl.IsWeak, TaggedImpl.IsWeakOrCleared, TaggedImpl.kCanBeWeak]
    simp [TaggedImpl.GetHeapObjectIfWeak, hweak]
  · intro hw
    cases kRefType
    · have h3 : v.ptr_ % 4 = 3 := by
        simp only [TaggedImpl.IsWeak, TaggedImpl.IsWeakOrCleared, TaggedImpl.kCanBeWeak,
          HAS_WEAK_HEAP_OBJECT_TAG, Bool.and_eq_true] at hw
        simpa using hw.1.2
      simp [TaggedImpl.GetHeapObjectIfStrong, TaggedImpl.IsStrong, TaggedImpl.kCanBeWeak,
        DCHECK, CHECK, HAS_STRONG_HEAP_OBJECT_TAG, h3]
    · simp [TaggedImpl.IsWeak, TaggedImpl.IsWeakOrCleared, TaggedImpl.kCanBeWeak] at hw

/-- C7 at three weak-capable values: GetHeapObjectIfWeak fails on the cleared
pattern 3 and on the strong pattern 5, GetHeapObjectIfStrong fails on the weak
pattern 7. -/
theorem accessors_succeed_iff_predicate_witness :
    (⟨3⟩ : TaggedImpl HeapObjectReferenceType.WEAK StorageType.Address).GetHeapObjectIfWeak
        HeapObject.mk = some none ∧
    (⟨5⟩ : TaggedImpl HeapObjectReferenceType.WEAK StorageType.Address).GetHeapObjectIfWeak
        HeapObject.mk = some none ∧
    (⟨7⟩ : TaggedImpl HeapObjectReferenceType.WEAK StorageType.Address).GetHeapObjectIfStrong
        debugConfig HeapObject.mk = some none :=
  ⟨(accessors_succeed_iff_predicate debugConfig HeapObjectReferenceType.WEAK
      StorageType.Address HeapObject.mk ⟨3⟩).2.2.2.1 (by decide),
   (accessors_succeed_iff_predicate debugConfig HeapObjectReferenceType.WEAK
      StorageType.Address HeapObject.mk ⟨5⟩).2.2.2.2.1 (by decide),
   (accessors_succeed_iff_predicate debugConfig HeapObjectReferenceType.WEAK
      StorageType.Address HeapObject.mk ⟨7⟩).2.2.2.2.2 (by decide)⟩

/-- C8, as stated, fails: in a build with DCHECKs, on the non-weak value with
bit pattern 3, IsStrongOrWeak is true, while IsWeak is false and IsStrong does
not return true: its DCHECK fails. -/
theorem IsStrongOrWeak_not_iff_strong_or_weak :
    ¬ ((⟨3⟩ : TaggedImpl HeapObjectReferenceType.STRONG StorageType.Address).IsStrongOrWeak
          = true ↔
        ((⟨3⟩ : TaggedImpl HeapObjectReferenceType.STRONG StorageType.Address).IsStrong
            debugConfig = some true ∨
         (⟨3⟩ : TaggedImpl HeapObjectReferenceType.STRONG StorageType.Address).IsWeak
            = true)) := by
  decide

/-- C8, amended: when the DCHECK of IsStrong is compiled out, or the family is
weak-capable, or the low two bits of the value are not 11, IsStrong returns, and
IsStrongOrWeak holds exactly when IsStrong or IsWeak holds, for either family
and either storage type. -/
theorem IsStrongOrWeak_iff_strong_or_weak (cfg : Config) (kRefType : HeapObjectReferenceType)
    (S : StorageType) (v : TaggedImpl kRefType S)
    (hcheck : cfg.debug = false ∨ kRefType = HeapObjectReferenceType.WEAK ∨ v.ptr_ % 4 ≠ 3) :
    ∃ s, v.IsStrong cfg = some s ∧
      (v.IsStrongOrWeak = true ↔ (s = true ∨ v.IsWeak = true)) := by
  have h4 : v.ptr_ % 4 < 4 := Nat.mod_lt _ (by norm_num)
  have h2 : v.ptr_ % 2 = v.ptr_ % 4 % 2 := by omega
  have h32 : v.ptr_ % 4 = v.ptr_ % 4294967296 % 4 := by omega
  cases kRefType
  · refine ⟨HAS_STRONG_HEAP_OBJECT_TAG v.ptr_, ?_, ?_⟩
    · simp [TaggedImpl.IsStrong, TaggedImpl.kCanBeWeak, DCHECK, CHECK]
    · simp only [TaggedImpl.IsStrongOrWeak, TaggedImpl.IsSmi, TaggedImpl.IsWeak,
        TaggedImpl.IsWeakOrCleared, TaggedImpl.IsCleared, TaggedImpl.kCanBeWeak, HAS_SMI_TAG,
        HAS_STRONG_HEAP_OBJECT_TAG, HAS_WEAK_HEAP_OBJECT_TAG, static_cast_uint32_t,
        kClearedWeakHeapObjectLower32, h2]
      norm_num only
      by_cases hc : v.ptr_ % 4294967296 = 3
      · have : v.ptr_ % 4 = 3 := by omega
        simp [hc, this]
      · interval_cases h : v.ptr_ % 4 <;> simp [hc]
  · refine ⟨!v.IsSmi, ?_, ?_⟩
    · simp only [TaggedImpl.IsStrong, TaggedImpl.IsSmi, TaggedImpl.kCanBeWeak, DCHECK, CHECK,
        HAS_SMI_TAG, HAS_STRONG_HEAP_OBJECT_TAG, h2]
      rcases hcheck with hd | hk | h3
      · simp [hd]
      · cases hk
      · cases cfg.debug <;> interval_cases h : v.ptr_ % 4 <;> simp at h3 ⊢
    · simp [TaggedImpl.IsStrongOrWeak, TaggedImpl.IsWeak, TaggedImpl.IsWeakOrCleared,
        TaggedImpl.IsCleared, TaggedImpl.kCanBeWeak]

/-- C8, amended, at the non-weak value with bit pattern 5 in a build with
DCHECKs. -/
theorem IsStrongOrWeak_iff_strong_or_weak_witness :
    (debugConfig.debug = false ∨
      HeapObjectReferenceType.STRONG = HeapObjectReferenceType.WEAK ∨ 5 % 4 ≠ 3) ∧
    ∃ s, (⟨5⟩ : TaggedImpl HeapObjectReferenceType.STRONG StorageType.Address).IsStrong
          debugConfig = some s ∧
      ((⟨5⟩ : TaggedImpl HeapObjectReferenceType.STRONG StorageType.Address).IsStrongOrWeak
          = true ↔
        (s = true ∨
          (⟨5⟩ : TaggedImpl HeapObjectReferenceType.STRONG StorageType.Address).IsWeak
            = true)) :=
  ⟨by decide,
   IsStrongOrWeak_iff_strong_or_weak debugConfig HeapObjectReferenceType.STRONG
     StorageType.Address ⟨5⟩ (by decide)⟩

/-- C9: two full-width values built from the same raw bits compare equal under
the operator == and under SafeEquals, in every build configuration. -/
theorem same_bits_compare_equal (cfg : Config) (kRefType : HeapObjectReferenceType) (p : Nat) :
    (⟨p⟩ : TaggedImpl kRefType StorageType.Address).operator_eq cfg
        (⟨p⟩ : TaggedImpl kRefType StorageType.Address) = some true ∧
    (⟨p⟩ : TaggedImpl kRefType StorageType.Address).SafeEquals cfg ⟨p⟩ = some true := by
  have heq : (⟨p⟩ : TaggedImpl kRefType StorageType.Address).operator_eq cfg
      (⟨p⟩ : TaggedImpl kRefType StorageType.Address) = some true := by
    simp only [TaggedImpl.operator_eq, TaggedImpl.ptr, SLOW_DCHECK, CHECK,
      CheckObjectComparisonAllowed]
    cases cfg.externalCodeSpace <;> cases cfg.slowDchecks <;> simp [StorageType.isAddress]
  refine ⟨heq, ?_⟩
  unfold TaggedImpl.SafeEquals
  cases cfg.externalCodeSpace
  · simpa using heq
  · simp [TaggedImpl.ptr]

/-- C10: without the external code space, SafeEquals is the operator ==, which
compares the Tagged_t parts of the two words and runs no check. -/
theorem SafeEquals_eq_operator_eq (cfg : Config) (kRefType : HeapObjectReferenceType)
    (a b : TaggedImpl kRefType StorageType.Address) (hspace : cfg.externalCodeSpace = false) :
    a.SafeEquals cfg b = a.operator_eq cfg b ∧
    a.operator_eq cfg b =
      some (static_cast_Tagged_t cfg a.ptr_ == static_cast_Tagged_t cfg b.ptr_) := by
  constructor
  · simp [TaggedImpl.SafeEquals, hspace]
  · simp [TaggedImpl.operator_eq, TaggedImpl.ptr, hspace]

/-- C10 at the full-width values 5 and 9 of a 64-bit build without the external
code space. -/
theorem SafeEquals_eq_operator_eq_witness :
    config64.externalCodeSpace = false ∧
    (⟨5⟩ : TaggedImpl HeapObjectReferenceType.STRONG StorageType.Address).SafeEquals config64
        ⟨9⟩ =
      (⟨5⟩ : TaggedImpl HeapObjectReferenceType.STRONG StorageType.Address).operator_eq config64
        (⟨9⟩ : TaggedImpl HeapObjectReferenceType.STRONG StorageType.Address) :=
  ⟨rfl,
   (SafeEquals_eq_operator_eq config64 HeapObjectReferenceType.STRONG ⟨5⟩ ⟨9⟩ rfl).1⟩

/-! ## Equality, ordering and cast -/

/-- The operator == returns the comparison of the Tagged_t parts when its check
is compiled out, inactive, or passed. -/
theorem TaggedImpl.operator_eq_of_allowed (cfg : Config) {kRefType : HeapObjectReferenceType}
    {S U : StorageType} (a : TaggedImpl kRefType S) (b : TaggedImpl kRefType U)
    (hcheck : cfg.externalCodeSpace = true → S.isAddress cfg = true → U.isAddress cfg = true →
      cfg.slowDchecks = true → CheckObjectComparisonAllowed cfg a.ptr_ b.ptr_ = true) :
    a.operator_eq cfg b =
      some (static_cast_Tagged_t cfg a.ptr_ == static_cast_Tagged_t cfg b.ptr_) := by
  unfold TaggedImpl.operator_eq SLOW_DCHECK CHECK TaggedImpl.ptr
  by_cases h1 : cfg.externalCodeSpace = true <;> by_cases h2 : S.isAddress cfg = true <;>
    by_cases h3 : U.isAddress cfg = true <;> by_cases h4 : cfg.slowDchecks = true <;>
    simp_all

/-- The operator < returns the comparison of the Tagged_t parts when its check
is compiled out, inactive, or passed. -/
theorem TaggedImpl.operator_lt_of_allowed (cfg : Config) {kRefType : HeapObjectReferenceType}
    {S : StorageType} (a b : TaggedImpl kRefType S)
    (hcheck : cfg.externalCodeSpace = true → S.isAddress cfg = true →
      cfg.slowDchecks = true → CheckObjectComparisonAllowed cfg a.ptr_ b.ptr_ = true) :
    a.operator_lt cfg b =
      some (decide (static_cast_Tagged_t cfg a.ptr_ < static_cast_Tagged_t cfg b.ptr_)) := by
  unfold TaggedImpl.operator_lt SLOW_DCHECK CHECK TaggedImpl.ptr
  by_cases h1 : cfg.externalCodeSpace = true <;> by_cases h2 : S.isAddress cfg = true <;>
    by_cases h4 : cfg.slowDchecks = true <;>
    simp_all

/-- A word may always be compared with itself. -/
theorem CheckObjectComparisonAllowed_self (cfg : Config) (a : Nat) :
    CheckObjectComparisonAllowed cfg a a = true := by
  simp [CheckObjectComparisonAllowed]

/-- C11, as stated, fails: in a build with the external code space and slow
DCHECKs, the full-width strong references 1 and 2^32 + 1 lie in different
sub-spaces and have equal Tagged_t parts, and the operator == does not return
true on them: its check fails. -/
theorem operator_eq_not_iff_low_bits :
    static_cast_Tagged_t crossCheckConfig 1 = static_cast_Tagged_t crossCheckConfig (2 ^ 32 + 1) ∧
    (⟨1⟩ : TaggedImpl HeapObjectReferenceType.STRONG StorageType.Address).operator_eq
        crossCheckConfig
        (⟨2 ^ 32 + 1⟩ : TaggedImpl HeapObjectReferenceType.STRONG StorageType.Address) = none := by
  decide

/-- The operator == returns true only on values with equal Tagged_t parts, in
every build and whatever its check does. -/
theorem TaggedImpl.operator_eq_true_imp (cfg : Config) {kRefType : HeapObjectReferenceType}
    {S U : StorageType} (a : TaggedImpl kRefType S) (b : TaggedImpl kRefType U)
    (htrue : a.operator_eq cfg b = some true) :
    static_cast_Tagged_t cfg a.ptr_ = static_cast_Tagged_t cfg b.ptr_ := by
  unfold TaggedImpl.operator_eq SLOW_DCHECK CHECK TaggedImpl.ptr at htrue
  by_cases hc : (cfg.externalCodeSpace && S.isAddress cfg && U.isAddress cfg) = true
  · rw [if_pos hc] at htrue
    by_cases hs : cfg.slowDchecks = true
    · rw [if_pos hs] at htrue
      by_cases ha : CheckObjectComparisonAllowed cfg a.ptr_ b.ptr_ = true
      · rw [if_pos ha] at htrue
        simpa using htrue
      · rw [if_neg ha] at htrue
        simp at htrue
    · rw [if_neg hs] at htrue
      simpa using htrue
  · rw [if_neg hc] at htrue
    simpa using htrue

/-- C11, amended: in every build, a == b never holds when the Tagged_t parts of
a and b differ, in any mix of storage types; when the check of the operator ==
is compiled out, inactive or passed, a == b holds exactly when the Tagged_t
parts are equal; and a value that fits its storage equals its own truncation
to Tagged_t, in every build. -/
theorem operator_eq_iff_low_bits (cfg : Config) (kRefType : HeapObjectReferenceType)
    (S U : StorageType) (a : TaggedImpl kRefType S) (b : TaggedImpl kRefType U) :
    (static_cast_Tagged_t cfg a.ptr_ ≠ static_cast_Tagged_t cfg b.ptr_ →
      a.operator_eq cfg b ≠ some true) ∧
    (a.operator_eq cfg b = some true →
      static_cast_Tagged_t cfg a.ptr_ = static_cast_Tagged_t cfg b.ptr_) ∧
    ((cfg.externalCodeSpace = true → S.isAddress cfg = true → U.isAddress cfg = true →
        cfg.slowDchecks = true → CheckObjectComparisonAllowed cfg a.ptr_ b.ptr_ = true) →
      (a.operator_eq cfg b = some true ↔
        static_cast_Tagged_t cfg a.ptr_ = static_cast_Tagged_t cfg b.ptr_)) ∧
    (a.Fits cfg →
      a.operator_eq cfg
        (⟨static_cast_Tagged_t cfg a.ptr_⟩ : TaggedImpl kRefType StorageType.Tagged_t)
        = some true) := by
  refine ⟨?_, ?_, ?_, ?_⟩
  · intro hne htrue
    exact hne (TaggedImpl.operator_eq_true_imp cfg a b htrue)
  · exact TaggedImpl.operator_eq_true_imp cfg a b
  · intro hcheck
    rw [TaggedImpl.operator_eq_of_allowed cfg a b hcheck]
    simp
  · intro hfits
    rw [TaggedImpl.operator_eq_of_allowed]
    · simp [static_cast_Tagged_t]
    · intro _ hS hU _
      have hcomp : cfg.compressPointers = false := by
        simpa [StorageType.isAddress] using hU
      have hsize : S.sizeof cfg = kTaggedSize cfg := by
        cases S
        · simp [StorageType.sizeof, kTaggedSize, hcomp]
        · rfl
      have hlt : a.ptr_ < 2 ^ (8 * kTaggedSize cfg) := by
        have := hfits
        unfold TaggedImpl.Fits at this
        rwa [hsize] at this
      simp only [static_cast_Tagged_t, Nat.mod_eq_of_lt hlt]
      exact CheckObjectComparisonAllowed_self cfg a.ptr_

/-- C11, amended, in the build with pointer compression, the external code
space and slow DCHECKs: the full-width value 2^32 + 5 equals the compressed
value 5; the full-width values 1 and 2^32 + 5, on which the check fails and
whose Tagged_t parts differ, are not found equal; and the full-width value
2^32 + 5 equals its own truncation. -/
theorem operator_eq_iff_low_bits_witness :
    ((⟨2 ^ 32 + 5⟩ : TaggedImpl HeapObjectReferenceType.STRONG StorageType.Address).operator_eq
        crossCheckConfig
        (⟨5⟩ : TaggedImpl HeapObjectReferenceType.STRONG StorageType.Tagged_t) = some true ↔
      static_cast_Tagged_t crossCheckConfig (2 ^ 32 + 5) = static_cast_Tagged_t crossCheckConfig 5) ∧
    (⟨1⟩ : TaggedImpl HeapObjectReferenceType.STRONG StorageType.Address).operator_eq
        crossCheckConfig
        (⟨2 ^ 32 + 5⟩ : TaggedImpl HeapObjectReferenceType.STRONG StorageType.Address)
      ≠ some true ∧
    (⟨2 ^ 32 + 5⟩ : TaggedImpl HeapObjectReferenceType.STRONG StorageType.Address).operator_eq
        crossCheckConfig
        (⟨static_cast_Tagged_t crossCheckConfig (2 ^ 32 + 5)⟩ :
          TaggedImpl HeapObjectReferenceType.STRONG StorageType.Tagged_t) = some true :=
  ⟨(operator_eq_iff_low_bits crossCheckConfig HeapObjectReferenceType.STRONG StorageType.Address
      StorageType.Tagged_t ⟨2 ^ 32 + 5⟩ ⟨5⟩).2.2.1 (by decide),
   (operator_eq_iff_low_bits crossCheckConfig HeapObjectReferenceType.STRONG StorageType.Address
      StorageType.Address ⟨1⟩ ⟨2 ^ 32 + 5⟩).1 (by decide),
   (operator_eq_iff_low_bits crossCheckConfig HeapObjectReferenceType.STRONG StorageType.Address
      StorageType.Address ⟨2 ^ 32 + 5⟩ ⟨2 ^ 32 + 5⟩).2.2.2 (by decide)⟩

/-- C12, as stated, fails: in a build with the external code space and slow
DCHECKs, for the full-width strong references 1 and 2^32 + 5, which lie in
different sub-spaces, none of a < b, a == b and b < a returns: the check fails
in each of them. -/
theorem operator_lt_no_trichotomy :
    (⟨1⟩ : TaggedImpl HeapObjectReferenceType.STRONG StorageType.Address).operator_lt
        crossCheckConfig ⟨2 ^ 32 + 5⟩ = none ∧
    (⟨1⟩ : TaggedImpl HeapObjectReferenceType.STRONG StorageType.Address).operator_eq
        crossCheckConfig
        (⟨2 ^ 32 + 5⟩ : TaggedImpl HeapObjectReferenceType.STRONG StorageType.Address) = none ∧
    (⟨2 ^ 32 + 5⟩ : TaggedImpl HeapObjectReferenceType.STRONG StorageType.Address).operator_lt
        crossCheckConfig ⟨1⟩ = none := by
  decide

/-- C12, amended: a < a is false for every value; and for values a, b, c of one
family and storage type whose comparisons pass the check of the operators (or
when that check is compiled out or inactive), a < b and b < c imply a < c, and
exactly one of a < b, a == b, b < a holds. -/
theorem operator_lt_strict_order (cfg : Config) (kRefType : HeapObjectReferenceType)
    (S : StorageType) (a b c : TaggedImpl kRefType S) :
    a.operator_lt cfg a = some false ∧
    ((cfg.externalCodeSpace = true → S.isAddress cfg = true → cfg.slowDchecks = true →
        (CheckObjectComparisonAllowed cfg a.ptr_ b.ptr_ = true ∧
         CheckObjectComparisonAllowed cfg b.ptr_ a.ptr_ = true ∧
         CheckObjectComparisonAllowed cfg b.ptr_ c.ptr_ = true ∧
         CheckObjectComparisonAllowed cfg a.ptr_ c.ptr_ = true)) →
      (a.operator_lt cfg b = some true → b.operator_lt cfg c = some true →
          a.operator_lt cfg c = some true) ∧
      ∃ lt eq gt, a.operator_lt cfg b = some lt ∧ a.operator_eq cfg b = some eq ∧
        b.operator_lt cfg a = some gt ∧ [lt, eq, gt].count true = 1) := by
  constructor
  · rw [TaggedImpl.operator_lt_of_allowed cfg a a
      (fun _ _ _ => CheckObjectComparisonAllowed_self cfg a.ptr_)]
    simp
  · intro hcheck
    have hab := TaggedImpl.operator_lt_of_allowed cfg a b
      (fun h1 h2 h3 => (hcheck h1 h2 h3).1)
    have hba := TaggedImpl.operator_lt_of_allowed cfg b a
      (fun h1 h2 h3 => (hcheck h1 h2 h3).2.1)
    have hbc := TaggedImpl.operator_lt_of_allowed cfg b c
      (fun h1 h2 h3 => (hcheck h1 h2 h3).2.2.1)
    have hac := TaggedImpl.operator_lt_of_allowed cfg a c
      (fun h1 h2 h3 => (hcheck h1 h2 h3).2.2.2)
    have heq := TaggedImpl.operator_eq_of_allowed cfg a b
      (fun h1 h2 _ h3 => (hcheck h1 h2 h3).1)
    constructor
    · rw [hab, hbc, hac]
      simp only [Option.some.injEq, decide_eq_true_eq]
      intro h1 h2
      exact lt_trans h1 h2
    · refine ⟨_, _, _, hab, heq, hba, ?_⟩
      rcases Nat.lt_trichotomy (static_cast_Tagged_t cfg a.ptr_)
          (static_cast_Tagged_t cfg b.ptr_) with h | h | h
      · have h1 : ¬ static_cast_Tagged_t cfg a.ptr_ = static_cast_Tagged_t cfg b.ptr_ := by omega
        have h2 : ¬ static_cast_Tagged_t cfg b.ptr_ < static_cast_Tagged_t cfg a.ptr_ := by omega
        simp [h, h1, h2]
      · simp [h]
      · have h1 : ¬ static_cast_Tagged_t cfg a.ptr_ = static_cast_Tagged_t cfg b.ptr_ := by omega
        have h2 : ¬ static_cast_Tagged_t cfg a.ptr_ < static_cast_Tagged_t cfg b.ptr_ := by omega
        simp [h, h1, h2]

/-- C12, amended, at the compressed values 4, 8 and 12 of the build with
pointer compression and slow DCHECKs. -/
theorem operator_lt_strict_order_witness :
    (⟨4⟩ : TaggedImpl HeapObjectReferenceType.STRONG StorageType.Tagged_t).operator_lt
        crossCheckConfig ⟨12⟩ = some true :=
  (operator_lt_strict_order crossCheckConfig HeapObjectReferenceType.STRONG
      StorageType.Tagged_t ⟨4⟩ ⟨8⟩ ⟨12⟩).2 (by decide) |>.1 (by decide) (by decide)

/-- C13, as stated, fails: in a build without DCHECKs, cast on the full-width
word 3, which carries the weak tag and is the cleared sentinel, ends in no
check failure: it proceeds to T::cast and returns its result. -/
theorem cast_weak_not_fatal :
    TaggedImpl.kIsFull config64 StorageType.Address = true ∧
    HAS_WEAK_HEAP_OBJECT_TAG 3 = true ∧
    (⟨3⟩ : TaggedImpl HeapObjectReferenceType.WEAK StorageType.Address).cast config64
        (fun word => some (HeapObject.mk word)) = some (HeapObject.mk 3) := by
  decide

/-- C13, amended: cast ends in a fatal check failure for every value in
storage that is not full, in every build; for a full-width value with the weak
tag it does so only in a build with DCHECKs, and proceeds to T::cast in a build
without them; for a full-width value without the weak tag it proceeds to
T::cast in every build. -/
theorem cast_checks (cfg : Config) (kRefType : HeapObjectReferenceType) (S : StorageType)
    (T : Type) (castT : Nat → Option T) (v : TaggedImpl kRefType S) :
    (TaggedImpl.kIsFull cfg S = false → v.cast cfg castT = none) ∧
    (TaggedImpl.kIsFull cfg S = true → HAS_WEAK_HEAP_OBJECT_TAG v.ptr_ = true →
      cfg.debug = true → v.cast cfg castT = none) ∧
    (TaggedImpl.kIsFull cfg S = true → HAS_WEAK_HEAP_OBJECT_TAG v.ptr_ = true →
      cfg.debug = false → v.cast cfg castT = castT v.ptr_) ∧
    (TaggedImpl.kIsFull cfg S = true → HAS_WEAK_HEAP_OBJECT_TAG v.ptr_ = false →
      v.cast cfg castT = castT v.ptr_) := by
  refine ⟨?_, ?_, ?_, ?_⟩
  · intro hfull
    simp [TaggedImpl.cast, CHECK, hfull]
  · intro hfull hweak hdebug
    simp [TaggedImpl.cast, CHECK, DCHECK, hfull, hweak, hdebug]
  · intro hfull hweak hdebug
    simp [TaggedImpl.cast, CHECK, DCHECK, hfull, hdebug]
  · intro hfull hweak
    cases hd : cfg.debug <;> simp [TaggedImpl.cast, CHECK, DCHECK, hfull, hweak, hd]

/-- C13, amended, at the compressed word 5 and at the full-width weak word 7 of
a build with DCHECKs. -/
theorem cast_checks_witness :
    (⟨5⟩ : TaggedImpl HeapObjectReferenceType.STRONG StorageType.Tagged_t).cast
        compressedConfig (fun word => some (HeapObject.mk word)) = none ∧
    (⟨7⟩ : TaggedImpl HeapObjectReferenceType.WEAK StorageType.Address).cast
        debugConfig (fun word => some (HeapObject.mk word)) = none :=
  ⟨(cast_checks compressedConfig HeapObjectReferenceType.STRONG StorageType.Tagged_t
      HeapObject (fun word => some (HeapObject.mk word)) ⟨5⟩).1 (by decide),
   (cast_checks debugConfig HeapObjectReferenceType.WEAK StorageType.Address
      HeapObject (fun word => some (HeapObject.mk word)) ⟨7⟩).2.1
        (by decide) (by decide) (by decide)⟩

/-! ## Composite, suffix and data-only descriptors -/

/-- IterateBody only appends calls to the visitor. -/
theorem BodyDescriptor.IterateBody_eq_append (d : BodyDescriptor) (map : Map) (obj : HeapObject)
    (object_size : Int) (v : ObjectVisitor) :
    d.IterateBody map obj object_size v = v ++ d.IterateBody map obj object_size [] := by
  induction d generalizing v with
  | SubclassBodyDescriptor parent child ihp ihc =>
    simp only [BodyDescriptor.IterateBody]
    rw [ihc (parent.IterateBody map obj object_size v), ihp v,
      ihc (parent.IterateBody map obj object_size []), List.append_assoc]
  | _ =>
    simp [BodyDescriptor.IterateBody, BodyDescriptorBase.IteratePointers,
      BodyDescriptorBase.IterateMaybeWeakPointers]

/-- The slots of a range lie from its start up to, and without, its end. -/
theorem rangeSlots_bounds (cfg : Config) (start end_ o : Int)
    (hmem : o ∈ rangeSlots cfg start end_) : start ≤ o ∧ o < end_ := by
  obtain ⟨i, rfl, hlt⟩ := (mem_rangeSlots cfg start end_ o).1 hmem
  refine ⟨?_, hlt⟩
  have hk : (0 : Int) ≤ (kTaggedSize cfg : Int) := Int.natCast_nonneg _
  have hi : (0 : Int) ≤ (i : Int) := Int.natCast_nonneg _
  nlinarith [mul_nonneg hi hk]

/-- With a slot-aligned start, the slots of a range are the slot-aligned
offsets from its start up to, and without, its end. -/
theorem mem_rangeSlots_aligned (cfg : Config) (start end_ o : Int)
    (haligned : (kTaggedSize cfg : Int) ∣ start) :
    o ∈ rangeSlots cfg start end_ ↔ (start ≤ o ∧ o < end_ ∧ (kTaggedSize cfg : Int) ∣ o) := by
  rw [mem_rangeSlots]
  rcases kTaggedSize_cases cfg with hk | hk <;> rw [hk] at haligned ⊢ <;>
  · constructor
    · rintro ⟨i, rfl, hlt⟩
      push_cast at haligned hlt ⊢
      refine ⟨by omega, hlt, ?_⟩
      omega
    · rintro ⟨hge, hlt, hdvd⟩
      push_cast at haligned hdvd ⊢
      obtain ⟨a, rfl⟩ := haligned
      obtain ⟨b, rfl⟩ := hdvd
      refine ⟨(b - a).toNat, ?_, hlt⟩
      omega

/-- A range that does not end after its start has no slot. -/
theorem rangeSlots_eq_nil (cfg : Config) (start end_ : Int) (hle : end_ ≤ start) :
    rangeSlots cfg start end_ = [] := by
  rw [List.eq_nil_iff_forall_not_mem]
  intro o hmem
  have := rangeSlots_bounds cfg start end_ o hmem
  omega

/-- A descriptor with a kStartOffset reports no slot twice and no slot below
its kStartOffset. -/
theorem BodyDescriptor.reported_of_kStartOffset (cfg : Config) (d : BodyDescriptor)
    (start : Int) (map : Map) (obj : HeapObject) (object_size : Int)
    (hstart : d.kStartOffset = some start) :
    (reportedSlots cfg (d.IterateBody map obj object_size [])).Nodup ∧
    ∀ o ∈ reportedSlots cfg (d.IterateBody map obj object_size []), start ≤ o := by
  cases d <;>
    simp only [BodyDescriptor.kStartOffset, Option.some.injEq, reduceCtorEq] at hstart <;>
    · subst hstart
      simp only [BodyDescriptor.IterateBody, BodyDescriptorBase.IteratePointers,
        BodyDescriptorBase.IterateMaybeWeakPointers, reportedSlots, List.nil_append,
        List.flatMap_cons, List.flatMap_nil, List.append_nil, VisitorCall.slots]
      exact ⟨nodup_rangeSlots cfg _ _, fun o ho => (rangeSlots_bounds cfg _ _ o ho).1⟩

/-- A descriptor with a kStartOffset reports the slots of its declared range:
from kStartOffset to kEndOffset, or to object_size when it declares no end. -/
theorem BodyDescriptor.reported_eq_declared_range (cfg : Config) (d : BodyDescriptor)
    (start : Int) (map : Map) (obj : HeapObject) (object_size : Int)
    (hstart : d.kStartOffset = some start) :
    reportedSlots cfg (d.IterateBody map obj object_size [])
      = rangeSlots cfg start (d.kEndOffset.getD object_size) := by
  cases d <;>
    simp only [BodyDescriptor.kStartOffset, Option.some.injEq, reduceCtorEq] at hstart <;>
    · subst hstart
      simp [BodyDescriptor.IterateBody, BodyDescriptorBase.IteratePointers,
        BodyDescriptorBase.IterateMaybeWeakPointers, reportedSlots, VisitorCall.slots,
        BodyDescriptor.kEndOffset]

/-- With slot-aligned start offsets, a slot-aligned offset below object_size
that satisfies IsValidSlot is among the slots that IterateBody reports. -/
theorem BodyDescriptor.mem_reported_of_IsValidSlot (cfg : Config) (d : BodyDescriptor)
    (haligned : d.slotAligned cfg = true) (map : Map) (obj : HeapObject) (object_size : Int)
    (o : Int) (hdvd : (kTaggedSize cfg : Int) ∣ o) (hlt : o < object_size)
    (hvalid : d.IsValidSlot map obj o = true) :
    o ∈ reportedSlots cfg (d.IterateBody map obj object_size []) := by
  induction d with
  | SubclassBodyDescriptor parent child ihp ihc =>
    simp only [BodyDescriptor.slotAligned, Bool.and_eq_true] at haligned
    have hcalls : (BodyDescriptor.SubclassBodyDescriptor parent child).IterateBody
        map obj object_size []
        = parent.IterateBody map obj object_size [] ++
          child.IterateBody map obj object_size [] := by
      simp only [BodyDescriptor.IterateBody]
      rw [BodyDescriptor.IterateBody_eq_append child]
    have happ : reportedSlots cfg (parent.IterateBody map obj object_size [] ++
          child.IterateBody map obj object_size [])
        = reportedSlots cfg (parent.IterateBody map obj object_size []) ++
          reportedSlots cfg (child.IterateBody map obj object_size []) := by
      simp [reportedSlots]
    rw [hcalls, happ, List.mem_append]
    simp only [BodyDescriptor.IsValidSlot, Bool.or_eq_true] at hvalid
    rcases hvalid with hv | hv
    · exact Or.inl (ihp haligned.1 hv)
    · exact Or.inr (ihc haligned.2 hv)
  | DataOnlyBodyDescriptor =>
    simp [BodyDescriptor.IsValidSlot] at hvalid
  | _ =>
    simp only [BodyDescriptor.slotAligned, decide_eq_true_eq] at haligned
    simp only [BodyDescriptor.IsValidSlot, Bool.and_eq_true, decide_eq_true_eq,
      ge_iff_le] at hvalid
    simp only [BodyDescriptor.IterateBody, BodyDescriptorBase.IteratePointers,
      BodyDescriptorBase.IterateMaybeWeakPointers, reportedSlots, List.nil_append,
      List.flatMap_cons, List.flatMap_nil, List.append_nil, VisitorCall.slots]
    rw [mem_rangeSlots_aligned cfg _ _ o haligned]
    first | exact ⟨hvalid.1, hvalid.2, hdvd⟩ | exact ⟨hvalid, hlt, hdvd⟩

/-- C14, as stated, fails: the composite of FixedBodyDescriptor<8, 32, 16> and
FixedRangeBodyDescriptor<16, 24> passes the static_assert, and with 8-byte
slots its IterateBody reports the slots 8, 16, 24 and 16 again: slot 16 is
reported by the parent and by the child. -/
theorem subclass_reports_slot_twice :
    (BodyDescriptor.SubclassBodyDescriptor (BodyDescriptor.FixedBodyDescriptor 8 32 16)
        (BodyDescriptor.FixedRangeBodyDescriptor 16 24)).instantiates = true ∧
    reportedSlots config64
      ((BodyDescriptor.SubclassBodyDescriptor (BodyDescriptor.FixedBodyDescriptor 8 32 16)
        (BodyDescriptor.FixedRangeBodyDescriptor 16 24)).IterateBody ⟨0⟩ ⟨0⟩ 32 [])
      = [8, 16, 24, 16] := by
  decide

/-- C14, amended: when the composite passes its static_assert and the pointer
range of the parent ends at or before the fixed size of the parent, IterateBody
of the composite makes the calls of the parent followed by the calls of the
child; no slot is reported twice, and none by both the parent and the child;
the slots reported are those of the declared range of the parent, from its
kStartOffset to its kEndOffset, followed by those of the declared range of the
child, from its kStartOffset to its kEndOffset or to object_size; and, when the
start offsets are slot-aligned, every slot-aligned offset below object_size
that satisfies IsValidSlot of the composite is reported exactly once. -/
theorem subclass_IterateBody (cfg : Config) (parent child : BodyDescriptor)
    (hassert : (BodyDescriptor.SubclassBodyDescriptor parent child).instantiates = true)
    (hparent : ∀ e size, parent.kEndOffset = some e → parent.kSize = some size → e ≤ size)
    (map : Map) (obj : HeapObject) (object_size : Int) (v : ObjectVisitor) :
    (BodyDescriptor.SubclassBodyDescriptor parent child).IterateBody map obj object_size v
      = v ++ (parent.IterateBody map obj object_size [] ++
              child.IterateBody map obj object_size []) ∧
    (reportedSlots cfg (parent.IterateBody map obj object_size [] ++
        child.IterateBody map obj object_size [])).Nodup ∧
    (∀ o, ¬ (o ∈ reportedSlots cfg (parent.IterateBody map obj object_size []) ∧
             o ∈ reportedSlots cfg (child.IterateBody map obj object_size []))) ∧
    (∀ o, (o ∈ reportedSlots cfg (parent.IterateBody map obj object_size []) ∨
           o ∈ reportedSlots cfg (child.IterateBody map obj object_size [])) →
      (reportedSlots cfg (parent.IterateBody map obj object_size [] ++
        child.IterateBody map obj object_size [])).count o = 1) ∧
    (∀ parent_start parent_end child_start,
      parent.kStartOffset = some parent_start → parent.kEndOffset = some parent_end →
      child.kStartOffset = some child_start →
      reportedSlots cfg
          ((BodyDescriptor.SubclassBodyDescriptor parent child).IterateBody
            map obj object_size [])
        = rangeSlots cfg parent_start parent_end ++
          rangeSlots cfg child_start (child.kEndOffset.getD object_size)) ∧
    (parent.slotAligned cfg = true → child.slotAligned cfg = true →
      ∀ o : Int, (kTaggedSize cfg : Int) ∣ o → o < object_size →
        (BodyDescriptor.SubclassBodyDescriptor parent child).IsValidSlot map obj o = true →
        (reportedSlots cfg
          ((BodyDescriptor.SubclassBodyDescriptor parent child).IterateBody
            map obj object_size [])).count o = 1) := by
  have hcalls : ∀ w : ObjectVisitor,
      (BodyDescriptor.SubclassBodyDescriptor parent child).IterateBody map obj object_size w
      = w ++ (parent.IterateBody map obj object_size [] ++
              child.IterateBody map obj object_size []) := by
    intro w
    simp only [BodyDescriptor.IterateBody]
    rw [BodyDescriptor.IterateBody_eq_append child, BodyDescriptor.IterateBody_eq_append parent,
      List.append_assoc]
  have hnil := hcalls []
  rw [List.nil_append] at hnil
  simp only [BodyDescriptor.instantiates, Bool.and_eq_true,
    BodyDescriptor.static_assert_parent_before_child] at hassert
  obtain ⟨-, hle⟩ := hassert
  cases hsize : parent.kSize with
  | none => simp [hsize] at hle
  | some size =>
    cases hstart : child.kStartOffset with
    | none => simp [hsize, hstart] at hle
    | some start =>
      simp only [hsize, hstart, decide_eq_true_eq] at hle
      obtain ⟨hcn, hcge⟩ :=
        BodyDescriptor.reported_of_kStartOffset cfg child start map obj object_size hstart
      have hcrange :=
        BodyDescriptor.reported_eq_declared_range cfg child start map obj object_size hstart
      cases parent <;> simp [BodyDescriptor.kSize] at hsize
      rename_i s e sz
      have hend : e ≤ sz := hparent e sz rfl (by simp [BodyDescriptor.kSize])
      have hpslots : reportedSlots cfg
          ((BodyDescriptor.FixedBodyDescriptor s e sz).IterateBody map obj object_size [])
          = rangeSlots cfg s e := by
        simp [BodyDescriptor.IterateBody, BodyDescriptorBase.IteratePointers, reportedSlots,
          VisitorCall.slots]
      have hdisj : ∀ o, ¬ (o ∈ reportedSlots cfg
            ((BodyDescriptor.FixedBodyDescriptor s e sz).IterateBody map obj object_size []) ∧
          o ∈ reportedSlots cfg (child.IterateBody map obj object_size [])) := by
        rintro o ⟨hp, hc⟩
        rw [hpslots] at hp
        have h1 := (rangeSlots_bounds cfg s e o hp).2
        have h2 := hcge o hc
        omega
      have happ : reportedSlots cfg
          ((BodyDescriptor.FixedBodyDescriptor s e sz).IterateBody map obj object_size [] ++
            child.IterateBody map obj object_size [])
          = reportedSlots cfg
              ((BodyDescriptor.FixedBodyDescriptor s e sz).IterateBody map obj object_size []) ++
            reportedSlots cfg (child.IterateBody map obj object_size []) := by
        simp [reportedSlots]
      have hnodup : (reportedSlots cfg
          ((BodyDescriptor.FixedBodyDescriptor s e sz).IterateBody map obj object_size [] ++
            child.IterateBody map obj object_size [])).Nodup := by
        rw [happ]
        refine List.Nodup.append ?_ hcn ?_
        · rw [hpslots]; exact nodup_rangeSlots cfg s e
        · intro o hp hc
          exact hdisj o ⟨hp, hc⟩
      refine ⟨hcalls v, hnodup, hdisj, ?_, ?_, ?_⟩
      · intro o ho
        refine List.count_eq_one_of_mem hnodup ?_
        rw [happ, List.mem_append]
        exact ho
      · intro parent_start parent_end child_start hps hpe hcs
        simp only [BodyDescriptor.kStartOffset, BodyDescriptor.kEndOffset,
          Option.some.injEq] at hps hpe
        simp only [Option.some.injEq] at hcs
        subst hps hpe hcs
        rw [hnil, happ, hpslots, hcrange]
      · intro hpa hca o hdvd hlt hvalid
        have hmem := BodyDescriptor.mem_reported_of_IsValidSlot cfg
          (BodyDescriptor.SubclassBodyDescriptor (BodyDescriptor.FixedBodyDescriptor s e sz) child)
          (by
            show ((BodyDescriptor.FixedBodyDescriptor s e sz).slotAligned cfg &&
              child.slotAligned cfg) = true
            rw [hpa, hca]; rfl)
          map obj object_size o hdvd hlt hvalid
        rw [hnil] at hmem ⊢
        exact List.count_eq_one_of_mem hnodup hmem

/-- C14, amended, at the parent FixedBodyDescriptor<8, 16, 16> and the child
SuffixRangeBodyDescriptor<16> with 8-byte slots and an object of size 32: the
slots 8, 16 and 24 are reported, none twice, and the valid slot at offset 8 is
reported exactly once. -/
theorem subclass_IterateBody_witness :
    (BodyDescriptor.SubclassBodyDescriptor (BodyDescriptor.FixedBodyDescriptor 8 16 16)
        (BodyDescriptor.SuffixRangeBodyDescriptor 16)).instantiates = true ∧
    reportedSlots config64
      ((BodyDescriptor.SubclassBodyDescriptor (BodyDescriptor.FixedBodyDescriptor 8 16 16)
        (BodyDescriptor.SuffixRangeBodyDescriptor 16)).IterateBody ⟨0⟩ ⟨0⟩ 32 [])
      = [8, 16, 24] ∧
    (reportedSlots config64
      ((BodyDescriptor.FixedBodyDescriptor 8 16 16).IterateBody ⟨0⟩ ⟨0⟩ 32 [] ++
        (BodyDescriptor.SuffixRangeBodyDescriptor 16).IterateBody ⟨0⟩ ⟨0⟩ 32 [])).Nodup ∧
    (BodyDescriptor.SubclassBodyDescriptor (BodyDescriptor.FixedBodyDescriptor 8 16 16)
        (BodyDescriptor.SuffixRangeBodyDescriptor 16)).IsValidSlot ⟨0⟩ ⟨0⟩ 8 = true ∧
    (reportedSlots config64
      ((BodyDescriptor.SubclassBodyDescriptor (BodyDescriptor.FixedBodyDescriptor 8 16 16)
        (BodyDescriptor.SuffixRangeBodyDescriptor 16)).IterateBody ⟨0⟩ ⟨0⟩ 32 [])).count 8
      = 1 :=
  ⟨by decide, by decide,
   (subclass_IterateBody config64 (BodyDescriptor.FixedBodyDescriptor 8 16 16)
     (BodyDescriptor.SuffixRangeBodyDescriptor 16) (by decide)
     (by
       intro e size he hs
       simp only [BodyDescriptor.kEndOffset, BodyDescriptor.kSize, Option.some.injEq] at he hs
       omega)
     ⟨0⟩ ⟨0⟩ 32 []).2.1,
   by decide,
   (subclass_IterateBody config64 (BodyDescriptor.FixedBodyDescriptor 8 16 16)
     (BodyDescriptor.SuffixRangeBodyDescriptor 16) (by decide)
     (by
       intro e size he hs
       simp only [BodyDescriptor.kEndOffset, BodyDescriptor.kSize, Option.some.injEq] at he hs
       omega)
     ⟨0⟩ ⟨0⟩ 32 []).2.2.2.2.2 (by decide) (by decide) 8 (by decide) (by decide) (by decide)⟩

/-- C15: for a parent with a fixed size and a child with a start offset, the
instantiation of the composite is rejected exactly when the size of the parent
is greater than the start offset of the child; it is accepted otherwise, and on
a rejected composite neither IsValidSlot nor IterateBody yields a result. -/
theorem subclass_rejected_iff (parent child : BodyDescriptor) (size start : Int)
    (hsize : parent.kSize = some size) (hstart : child.kStartOffset = some start) :
    (BodyDescriptor.instantiateSubclass parent child = none ↔ size > start) ∧
    (size ≤ start → BodyDescriptor.instantiateSubclass parent child =
      some (BodyDescriptor.SubclassBodyDescriptor parent child)) ∧
    (size > start → ∀ (map : Map) (obj : HeapObject) (offset object_size : Int)
        (v : ObjectVisitor),
      (BodyDescriptor.instantiateSubclass parent child).map
          (fun d => d.IsValidSlot map obj offset) = none ∧
      (BodyDescriptor.instantiateSubclass parent child).map
          (fun d => d.IterateBody map obj object_size v) = none) := by
  have hassert : BodyDescriptor.static_assert_parent_before_child parent child
      = decide (size ≤ start) := by
    simp [BodyDescriptor.static_assert_parent_before_child, hsize, hstart]
  have hnone : BodyDescriptor.instantiateSubclass parent child = none ↔ size > start := by
    simp [BodyDescriptor.instantiateSubclass, hassert]
  refine ⟨hnone, ?_, ?_⟩
  · intro hle
    simp [BodyDescriptor.instantiateSubclass, hassert, hle]
  · intro hgt map obj offset object_size v
    rw [hnone.2 hgt]
    exact ⟨rfl, rfl⟩

/-- C15 at a parent of size 16: the child starting at 8 is rejected, the child
starting at 16 is accepted. -/
theorem subclass_rejected_iff_witness :
    BodyDescriptor.instantiateSubclass (BodyDescriptor.FixedBodyDescriptor 0 16 16)
      (BodyDescriptor.FixedRangeBodyDescriptor 8 24) = none ∧
    BodyDescriptor.instantiateSubclass (BodyDescriptor.FixedBodyDescriptor 0 16 16)
      (BodyDescriptor.FixedRangeBodyDescriptor 16 24) =
        some (BodyDescriptor.SubclassBodyDescriptor (BodyDescriptor.FixedBodyDescriptor 0 16 16)
          (BodyDescriptor.FixedRangeBodyDescriptor 16 24)) :=
  ⟨(subclass_rejected_iff (BodyDescriptor.FixedBodyDescriptor 0 16 16)
      (BodyDescriptor.FixedRangeBodyDescriptor 8 24) 16 8 rfl rfl).1.2 (by decide),
   (subclass_rejected_iff (BodyDescriptor.FixedBodyDescriptor 0 16 16)
      (BodyDescriptor.FixedRangeBodyDescriptor 16 24) 16 16 rfl rfl).2.1 (by decide)⟩

/-- C16: IsValidSlot of a composite is the logical OR of IsValidSlot of the
parent and of the child on the same arguments; with a parent of size 16 over
the range from 8 to 16 and a child range starting at 16, offsets 8 and 16 are
valid and offset 0 is not. -/
theorem subclass_IsValidSlot_or :
    (∀ (parent child : BodyDescriptor) (map : Map) (obj : HeapObject) (offset : Int),
      (BodyDescriptor.SubclassBodyDescriptor parent child).IsValidSlot map obj offset =
        (parent.IsValidSlot map obj offset || child.IsValidSlot map obj offset)) ∧
    (BodyDescriptor.SubclassBodyDescriptor (BodyDescriptor.FixedBodyDescriptor 8 16 16)
      (BodyDescriptor.SuffixRangeBodyDescriptor 16)).IsValidSlot ⟨0⟩ ⟨0⟩ 8 = true ∧
    (BodyDescriptor.SubclassBodyDescriptor (BodyDescriptor.FixedBodyDescriptor 8 16 16)
      (BodyDescriptor.SuffixRangeBodyDescriptor 16)).IsValidSlot ⟨0⟩ ⟨0⟩ 16 = true ∧
    (BodyDescriptor.SubclassBodyDescriptor (BodyDescriptor.FixedBodyDescriptor 8 16 16)
      (BodyDescriptor.SuffixRangeBodyDescriptor 16)).IsValidSlot ⟨0⟩ ⟨0⟩ 0 = false := by
  refine ⟨?_, by decide, by decide, by decide⟩
  intro parent child map obj offset
  simp [BodyDescriptor.IsValidSlot]

/-- C17: IterateBody of a suffix-range descriptor makes one visitor call,
through the strong-pointer entry point, for the range from the start offset to
object_size: the slots reported are the offsets start, start + slot, ... below
object_size, each once (the slot-aligned offsets of that interval when start is
aligned), none through the possibly-weak entry point, and none at all when
object_size is not above the start offset. -/
theorem suffix_range_IterateBody (cfg : Config) (start_offset : Int)
    (map : Map) (obj : HeapObject) (object_size : Int) (v : ObjectVisitor) :
    (BodyDescriptor.SuffixRangeBodyDescriptor start_offset).IterateBody map obj object_size v
      = v ++ [VisitorCall.strongRange obj start_offset object_size] ∧
    [VisitorCall.strongRange obj start_offset object_size].all VisitorCall.isStrongRange = true ∧
    strongSlots cfg [VisitorCall.strongRange obj start_offset object_size]
      = rangeSlots cfg start_offset object_size ∧
    (strongSlots cfg [VisitorCall.strongRange obj start_offset object_size]).Nodup ∧
    (∀ o : Int, o ∈ strongSlots cfg [VisitorCall.strongRange obj start_offset object_size] ↔
      ∃ i : Nat, o = start_offset + (i : Int) * (kTaggedSize cfg : Int) ∧ o < object_size) ∧
    ((kTaggedSize cfg : Int) ∣ start_offset →
      ∀ o : Int, o ∈ strongSlots cfg [VisitorCall.strongRange obj start_offset object_size] ↔
        (start_offset ≤ o ∧ o < object_size ∧ (kTaggedSize cfg : Int) ∣ o)) ∧
    maybeWeakSlots cfg [VisitorCall.strongRange obj start_offset object_size] = [] ∧
    (object_size ≤ start_offset →
      strongSlots cfg [VisitorCall.strongRange obj start_offset object_size] = []) := by
  have hslots : strongSlots cfg [VisitorCall.strongRange obj start_offset object_size]
      = rangeSlots cfg start_offset object_size := by
    simp [strongSlots, VisitorCall.strongSlots]
  refine ⟨rfl, by simp [VisitorCall.isStrongRange], hslots, ?_, ?_, ?_, ?_, ?_⟩
  · rw [hslots]; exact nodup_rangeSlots cfg start_offset object_size
  · intro o
    rw [hslots]; exact mem_rangeSlots cfg start_offset object_size o
  · intro haligned o
    rw [hslots]; exact mem_rangeSlots_aligned cfg start_offset object_size o haligned
  · simp [maybeWeakSlots, VisitorCall.maybeWeakSlots]
  · intro hle
    rw [hslots]; exact rangeSlots_eq_nil cfg start_offset object_size hle

/-- C17 at start offset 16 with 8-byte slots: an object of size 40 has the
slots 16, 24 and 32 reported, an object of size 16 none. -/
theorem suffix_range_IterateBody_witness :
    strongSlots config64 [VisitorCall.strongRange ⟨0⟩ 16 40] = [16, 24, 32] ∧
    strongSlots config64 [VisitorCall.strongRange ⟨0⟩ 16 16] = [] :=
  ⟨by decide,
   (suffix_range_IterateBody config64 16 ⟨0⟩ ⟨0⟩ 16 []).2.2.2.2.2.2.2 (by decide)⟩

/-- C18: the weak suffix descriptor has the same IsValidSlot as the strong
suffix descriptor, and its IterateBody reports the same range, from the start
offset to object_size, with the same slots, through the possibly-weak entry
point only: it reports nothing through the strong-pointer entry point. -/
theorem suffix_range_weak_same_range (cfg : Config) (start_offset : Int)
    (map : Map) (obj : HeapObject) (offset object_size : Int) (v : ObjectVisitor) :
    (BodyDescriptor.SuffixRangeWeakBodyDescriptor start_offset).IsValidSlot map obj offset =
      (BodyDescriptor.SuffixRangeBodyDescriptor start_offset).IsValidSlot map obj offset ∧
    (BodyDescriptor.SuffixRangeWeakBodyDescriptor start_offset).IterateBody map obj object_size v
      = v ++ [VisitorCall.maybeWeakRange obj start_offset object_size] ∧
    (BodyDescriptor.SuffixRangeBodyDescriptor start_offset).IterateBody map obj object_size v
      = v ++ [VisitorCall.strongRange obj start_offset object_size] ∧
    maybeWeakSlots cfg [VisitorCall.maybeWeakRange obj start_offset object_size] =
      strongSlots cfg [VisitorCall.strongRange obj start_offset object_size] ∧
    maybeWeakSlots cfg [VisitorCall.maybeWeakRange obj start_offset object_size] =
      rangeSlots cfg start_offset object_size ∧
    strongSlots cfg [VisitorCall.maybeWeakRange obj start_offset object_size] = [] ∧
    [VisitorCall.maybeWeakRange obj start_offset object_size].all VisitorCall.isMaybeWeakRange
      = true ∧
    [VisitorCall.maybeWeakRange obj start_offset object_size].all VisitorCall.isStrongRange
      = false := by
  refine ⟨rfl, rfl, rfl, ?_, ?_, ?_, ?_, ?_⟩
  · simp [maybeWeakSlots, strongSlots, VisitorCall.maybeWeakSlots, VisitorCall.strongSlots]
  · simp [maybeWeakSlots, VisitorCall.maybeWeakSlots]
  · simp [strongSlots, VisitorCall.strongSlots]
  · simp [VisitorCall.isMaybeWeakRange]
  · simp [VisitorCall.isStrongRange]

/-- C19: for the descriptor without pointers, IsValidSlot is false at every
offset and IterateBody makes no visitor call, whatever the map, the object and
object_size. -/
theorem data_only_no_slots (cfg : Config) (map : Map) (obj : HeapObject)
    (offset object_size : Int) (v : ObjectVisitor) :
    BodyDescriptor.DataOnlyBodyDescriptor.IsValidSlot map obj offset = false ∧
    BodyDescriptor.DataOnlyBodyDescriptor.IterateBody map obj object_size v = v ∧
    BodyDescriptor.DataOnlyBodyDescriptor.IterateBody map obj object_size [] = [] ∧
    reportedSlots cfg (BodyDescriptor.DataOnlyBodyDescriptor.IterateBody map obj object_size [])
      = [] :=
  ⟨rfl, rfl, rfl, rfl⟩

/-- C20: SizeOf of a fixed-range, a suffix-range, a weak suffix-range and the
data-only descriptor ends in the fatal UNREACHABLE for every map and object and
returns no value, whereas IsValidSlot of these descriptors returns a boolean,
false for an offset outside the range. -/
theorem SizeOf_unreachable (start_offset end_offset : Int) (map : Map) (object : HeapObject) :
    (BodyDescriptor.FixedRangeBodyDescriptor start_offset end_offset).SizeOf map object = none ∧
    (BodyDescriptor.SuffixRangeBodyDescriptor start_offset).SizeOf map object = none ∧
    (BodyDescriptor.SuffixRangeWeakBodyDescriptor start_offset).SizeOf map object = none ∧
    BodyDescriptor.DataOnlyBodyDescriptor.SizeOf map object = none ∧
    (∀ offset : Int, offset < start_offset →
      (BodyDescriptor.FixedRangeBodyDescriptor start_offset end_offset).IsValidSlot
          map object offset = false ∧
      (BodyDescriptor.SuffixRangeBodyDescriptor start_offset).IsValidSlot
          map object offset = false ∧
      (BodyDescriptor.SuffixRangeWeakBodyDescriptor start_offset).IsValidSlot
          map object offset = false ∧
      BodyDescriptor.DataOnlyBodyDescriptor.IsValidSlot map object offset = false) := by
  refine ⟨rfl, rfl, rfl, rfl, ?_⟩
  intro offset hlt
  simp [BodyDescriptor.IsValidSlot, hlt]

/-- C20 at the range from 16 to 32 and offset 8. -/
theorem SizeOf_unreachable_witness :
    (BodyDescriptor.FixedRangeBodyDescriptor 16 32).SizeOf ⟨0⟩ ⟨0⟩ = none ∧
    (BodyDescriptor.FixedRangeBodyDescriptor 16 32).IsValidSlot ⟨0⟩ ⟨0⟩ 8 = false :=
  ⟨(SizeOf_unreachable 16 32 ⟨0⟩ ⟨0⟩).1,
   ((SizeOf_unreachable 16 32 ⟨0⟩ ⟨0⟩).2.2.2.2 8 (by decide)).1⟩

/-! ## Size of a composite, the check of IsStrong, IsObject -/

/-- C21: SizeOf of a composite is SizeOf of its child on the same arguments,
whatever the parent; with the child FixedBodyDescriptor of size S it is S for
every map and object, and it is not the size of a parent whose size differs
from S. -/
theorem subclass_SizeOf_child :
    (∀ (parent child : BodyDescriptor) (map : Map) (object : HeapObject),
      (BodyDescriptor.SubclassBodyDescriptor parent child).SizeOf map object =
        child.SizeOf map object) ∧
    (∀ (parent : BodyDescriptor) (start_offset end_offset size : Int) (map : Map)
        (object : HeapObject),
      (BodyDescriptor.FixedBodyDescriptor start_offset end_offset size).SizeOf map object
        = some size ∧
      (BodyDescriptor.SubclassBodyDescriptor parent
        (BodyDescriptor.FixedBodyDescriptor start_offset end_offset size)).SizeOf map object
        = some size ∧
      ∀ parent_size, parent.kSize = some parent_size → parent_size ≠ size →
        (BodyDescriptor.SubclassBodyDescriptor parent
          (BodyDescriptor.FixedBodyDescriptor start_offset end_offset size)).SizeOf map object
          ≠ parent.kSize) ∧
    (BodyDescriptor.SubclassBodyDescriptor (BodyDescriptor.FixedBodyDescriptor 8 16 16)
      (BodyDescriptor.FixedBodyDescriptor 16 32 40)).SizeOf ⟨0⟩ ⟨0⟩ = some 40 := by
  refine ⟨fun _ _ _ _ => rfl, ?_, by decide⟩
  intro parent start_offset end_offset size map object
  refine ⟨rfl, rfl, ?_⟩
  intro parent_size hsize hne
  simp only [BodyDescriptor.SizeOf, hsize, ne_eq, Option.some.injEq]
  exact fun h => hne h.symm

/-- C22, as stated, fails: on the non-weak value with bit pattern 7 the
condition of the DCHECK of IsStrong is false, and in a build with DCHECKs
IsStrong trips the check instead of returning. -/
theorem IsStrong_dcheck_trips :
    (TaggedImpl.kCanBeWeak HeapObjectReferenceType.STRONG ||
      ((!(⟨7⟩ : TaggedImpl HeapObjectReferenceType.STRONG StorageType.Address).IsSmi) ==
        HAS_STRONG_HEAP_OBJECT_TAG 7)) = false ∧
    (⟨7⟩ : TaggedImpl HeapObjectReferenceType.STRONG StorageType.Address).IsStrong debugConfig
      = none := by
  decide

/-- C22, amended: for a non-weak-capable value the condition of the DCHECK of
IsStrong holds exactly when the low two bits are not 11; then IsStrong returns
the negation of IsSmi in every build; when the low two bits are 11, IsStrong
returns the negation of IsSmi, which is true, in a build without DCHECKs and
trips its check in a build with them. -/
theorem IsStrong_non_weak (cfg : Config) (S : StorageType)
    (v : TaggedImpl HeapObjectReferenceType.STRONG S) :
    ((TaggedImpl.kCanBeWeak HeapObjectReferenceType.STRONG ||
        ((!v.IsSmi) == HAS_STRONG_HEAP_OBJECT_TAG v.ptr_)) = true ↔ v.ptr_ % 4 ≠ 3) ∧
    (v.ptr_ % 4 ≠ 3 → v.IsStrong cfg = some (!v.IsSmi)) ∧
    (v.ptr_ % 4 = 3 → v.IsSmi = false ∧
      v.IsStrong cfg = if cfg.debug then none else some true) := by
  have h4 : v.ptr_ % 4 < 4 := Nat.mod_lt _ (by norm_num)
  have h2 : v.ptr_ % 2 = v.ptr_ % 4 % 2 := by omega
  simp only [TaggedImpl.IsStrong, TaggedImpl.IsSmi, TaggedImpl.kCanBeWeak, DCHECK, CHECK,
    HAS_SMI_TAG, HAS_STRONG_HEAP_OBJECT_TAG, h2]
  cases hd : cfg.debug <;> interval_cases h : v.ptr_ % 4 <;> simp

/-- C22, amended, at the non-weak value with bit pattern 5 in a build with
DCHECKs. -/
theorem IsStrong_non_weak_witness :
    (⟨5⟩ : TaggedImpl HeapObjectReferenceType.STRONG StorageType.Address).IsStrong debugConfig
      = some (!(⟨5⟩ : TaggedImpl HeapObjectReferenceType.STRONG StorageType.Address).IsSmi) :=
  (IsStrong_non_weak debugConfig StorageType.Address ⟨5⟩).2.1 (by decide)

/-- C23, as stated, fails: in a build with DCHECKs, on the non-weak value with
bit pattern 11, IsObject is true, while IsSmi is false and IsStrong does not
return true: its DCHECK fails. -/
theorem IsObject_not_iff_smi_or_strong :
    ¬ ((⟨11⟩ : TaggedImpl HeapObjectReferenceType.STRONG StorageType.Address).IsObject = true ↔
        ((⟨11⟩ : TaggedImpl HeapObjectReferenceType.STRONG StorageType.Address).IsSmi = true ∨
         (⟨11⟩ : TaggedImpl HeapObjectReferenceType.STRONG StorageType.Address).IsStrong
            debugConfig = some true)) := by
  decide

/-- C23, amended: when the DCHECK of IsStrong is compiled out, or the family is
weak-capable, or the low two bits of the value are not 11, IsStrong returns, and
IsObject is the disjunction of IsSmi and IsStrong, for either family and either
storage type. -/
theorem IsObject_iff_smi_or_strong (cfg : Config) (kRefType : HeapObjectReferenceType)
    (S : StorageType) (v : TaggedImpl kRefType S)
    (hcheck : cfg.debug = false ∨ kRefType = HeapObjectReferenceType.WEAK ∨ v.ptr_ % 4 ≠ 3) :
    ∃ s, v.IsStrong cfg = some s ∧ v.IsObject = (v.IsSmi || s) := by
  have h4 : v.ptr_ % 4 < 4 := Nat.mod_lt _ (by norm_num)
  have h2 : v.ptr_ % 2 = v.ptr_ % 4 % 2 := by omega
  cases kRefType
  · refine ⟨HAS_STRONG_HEAP_OBJECT_TAG v.ptr_, ?_, ?_⟩
    · simp [TaggedImpl.IsStrong, TaggedImpl.kCanBeWeak, DCHECK, CHECK]
    · simp only [TaggedImpl.IsObject, TaggedImpl.IsWeakOrCleared, TaggedImpl.IsSmi,
        TaggedImpl.kCanBeWeak, HAS_SMI_TAG, HAS_STRONG_HEAP_OBJECT_TAG,
        HAS_WEAK_HEAP_OBJECT_TAG, h2]
      interval_cases h : v.ptr_ % 4 <;> simp
  · refine ⟨!v.IsSmi, ?_, ?_⟩
    · simp only [TaggedImpl.IsStrong, TaggedImpl.IsSmi, TaggedImpl.kCanBeWeak, DCHECK, CHECK,
        HAS_SMI_TAG, HAS_STRONG_HEAP_OBJECT_TAG, h2]
      rcases hcheck with hd | hk | h3
      · simp [hd]
      · cases hk
      · cases cfg.debug <;> interval_cases h : v.ptr_ % 4 <;> simp at h3 ⊢
    · simp [TaggedImpl.IsObject, TaggedImpl.IsWeakOrCleared, TaggedImpl.kCanBeWeak]

/-- C23, amended, at the weak-capable value with bit pattern 7 in a build with
DCHECKs: it is weak, and neither an object, nor a Smi, nor strong. -/
theorem IsObject_iff_smi_or_strong_witness :
    ∃ s, (⟨7⟩ : TaggedImpl HeapObjectReferenceType.WEAK StorageType.Address).IsStrong
          debugConfig = some s ∧
      (⟨7⟩ : TaggedImpl HeapObjectReferenceType.WEAK StorageType.Address).IsObject =
        ((⟨7⟩ : TaggedImpl HeapObjectReferenceType.WEAK StorageType.Address).IsSmi || s) :=
  IsObject_iff_smi_or_strong debugConfig HeapObjectReferenceType.WEAK StorageType.Address ⟨7⟩
    (by decide)

/-! ## Ephemerons, storage width, SafeEquals, and the agreement of IsValidSlot
with IterateBody -/

/-- C25: IterateEphemeron hands the key and value slots to the visitor in one
call to the ephemeron entry point: whatever the key slot holds, no slot, and so
not the value slot, is reported through the strong-pointer or the possibly-weak
entry point. -/
theorem IterateEphemeron_only_ephemeron (cfg : Config) (obj : HeapObject)
    (index key_offset value_offset : Int) (v : ObjectVisitor) :
    BodyDescriptorBase.IterateEphemeron obj index key_offset value_offset v
      = v ++ [VisitorCall.ephemeron obj index key_offset value_offset] ∧
    strongSlots cfg (BodyDescriptorBase.IterateEphemeron obj index key_offset value_offset [])
      = [] ∧
    maybeWeakSlots cfg (BodyDescriptorBase.IterateEphemeron obj index key_offset value_offset [])
      = [] ∧
    value_offset ∉
      strongSlots cfg (BodyDescriptorBase.IterateEphemeron obj index key_offset value_offset []) ∧
    value_offset ∉
      maybeWeakSlots cfg
        (BodyDescriptorBase.IterateEphemeron obj index key_offset value_offset []) ∧
    (BodyDescriptorBase.IterateEphemeron obj index key_offset value_offset []).all
        (fun call => !call.isStrongRange && !call.isMaybeWeakRange) = true ∧
    reportedSlots cfg (BodyDescriptorBase.IterateEphemeron obj index key_offset value_offset [])
      = [key_offset, value_offset] := by
  simp [BodyDescriptorBase.IterateEphemeron, strongSlots, maybeWeakSlots, reportedSlots,
    VisitorCall.strongSlots, VisitorCall.maybeWeakSlots, VisitorCall.slots,
    VisitorCall.isStrongRange, VisitorCall.isMaybeWeakRange]

/-- C26: for either family, the full-width value built from a word and the
compressed value built from the lower 32 bits of the word agree on IsSmi,
IsStrong (its check included), IsWeak, IsCleared, IsWeakOrCleared,
IsStrongOrWeak and IsObject. -/
theorem classification_independent_of_width (cfg : Config)
    (kRefType : HeapObjectReferenceType) (p : Nat) :
    (⟨p⟩ : TaggedImpl kRefType StorageType.Address).IsSmi =
      (⟨static_cast_uint32_t p⟩ : TaggedImpl kRefType StorageType.Tagged_t).IsSmi ∧
    (⟨p⟩ : TaggedImpl kRefType StorageType.Address).IsStrong cfg =
      (⟨static_cast_uint32_t p⟩ : TaggedImpl kRefType StorageType.Tagged_t).IsStrong cfg ∧
    (⟨p⟩ : TaggedImpl kRefType StorageType.Address).IsWeak =
      (⟨static_cast_uint32_t p⟩ : TaggedImpl kRefType StorageType.Tagged_t).IsWeak ∧
    (⟨p⟩ : TaggedImpl kRefType StorageType.Address).IsCleared =
      (⟨static_cast_uint32_t p⟩ : TaggedImpl kRefType StorageType.Tagged_t).IsCleared ∧
    (⟨p⟩ : TaggedImpl kRefType StorageType.Address).IsWeakOrCleared =
      (⟨static_cast_uint32_t p⟩ : TaggedImpl kRefType StorageType.Tagged_t).IsWeakOrCleared ∧
    (⟨p⟩ : TaggedImpl kRefType StorageType.Address).IsStrongOrWeak =
      (⟨static_cast_uint32_t p⟩ : TaggedImpl kRefType StorageType.Tagged_t).IsStrongOrWeak ∧
    (⟨p⟩ : TaggedImpl kRefType StorageType.Address).IsObject =
      (⟨static_cast_uint32_t p⟩ : TaggedImpl kRefType StorageType.Tagged_t).IsObject := by
  have h2 : p % 4294967296 % 2 = p % 2 := by omega
  have h4 : p % 4294967296 % 4 = p % 4 := by omega
  have h32 : p % 4294967296 % 4294967296 = p % 4294967296 := by omega
  simp only [TaggedImpl.IsSmi, TaggedImpl.IsStrong, TaggedImpl.IsWeak, TaggedImpl.IsCleared,
    TaggedImpl.IsWeakOrCleared, TaggedImpl.IsStrongOrWeak, TaggedImpl.IsObject,
    HAS_SMI_TAG, HAS_STRONG_HEAP_OBJECT_TAG, HAS_WEAK_HEAP_OBJECT_TAG, static_cast_uint32_t]
  norm_num only [h2, h4, h32]
  simp [h2, h4, h32]

/-- C27: in every configuration, for full-width values a and b of one family,
SafeEquals(a, b) implies a == b, and a != b is the negation of a == b: it
returns the negated boolean when a == b returns, and trips the same check when
a == b does. -/
theorem SafeEquals_implies_operator_eq (cfg : Config) (kRefType : HeapObjectReferenceType)
    (a b : TaggedImpl kRefType StorageType.Address) :
    (a.SafeEquals cfg b = some true → a.operator_eq cfg b = some true) ∧
    a.operator_ne cfg b = (a.operator_eq cfg b).map (fun r => !r) := by
  constructor
  · intro hsafe
    unfold TaggedImpl.SafeEquals at hsafe
    cases hspace : cfg.externalCodeSpace
    · simpa [hspace] using hsafe
    · simp only [hspace, if_true, Option.some.injEq, beq_iff_eq, TaggedImpl.ptr] at hsafe
      rw [TaggedImpl.operator_eq_of_allowed cfg a b
        (fun _ _ _ _ => by rw [hsafe]; exact CheckObjectComparisonAllowed_self cfg b.ptr_)]
      simp [hsafe]
  · unfold TaggedImpl.operator_ne TaggedImpl.operator_eq SLOW_DCHECK CHECK
    cases cfg.externalCodeSpace <;> cases cfg.slowDchecks <;>
      cases CheckObjectComparisonAllowed cfg a.ptr_ b.ptr <;>
      simp [StorageType.isAddress, bne]

/-- C27 at the full-width word 2^32 + 1 compared with itself in the build with
the external code space and slow DCHECKs. -/
theorem SafeEquals_implies_operator_eq_witness :
    (⟨2 ^ 32 + 1⟩ : TaggedImpl HeapObjectReferenceType.STRONG StorageType.Address).SafeEquals
        crossCheckConfig ⟨2 ^ 32 + 1⟩ = some true ∧
    (⟨2 ^ 32 + 1⟩ : TaggedImpl HeapObjectReferenceType.STRONG StorageType.Address).operator_eq
        crossCheckConfig
        (⟨2 ^ 32 + 1⟩ : TaggedImpl HeapObjectReferenceType.STRONG StorageType.Address)
      = some true :=
  ⟨by decide,
   (SafeEquals_implies_operator_eq crossCheckConfig HeapObjectReferenceType.STRONG
      ⟨2 ^ 32 + 1⟩ ⟨2 ^ 32 + 1⟩).1 (by decide)⟩

/-- The slots reported by two sequences of calls, one after the other. -/
theorem reportedSlots_append (cfg : Config) (calls more : List VisitorCall) :
    reportedSlots cfg (calls ++ more) = reportedSlots cfg calls ++ reportedSlots cfg more := by
  simp [reportedSlots]

/-- C28: for every descriptor, composites included, whose start offsets are
slot-aligned, and for every object_size: every slot that IterateBody reports
satisfies IsValidSlot, and every slot-aligned offset below object_size that
satisfies IsValidSlot is reported by IterateBody. -/
theorem IsValidSlot_agrees_with_IterateBody (cfg : Config) (d : BodyDescriptor)
    (haligned : d.slotAligned cfg = true) (map : Map) (obj : HeapObject) (object_size : Int) :
    (∀ o ∈ reportedSlots cfg (d.IterateBody map obj object_size []),
      d.IsValidSlot map obj o = true) ∧
    (∀ o : Int, (kTaggedSize cfg : Int) ∣ o → o < object_size →
      d.IsValidSlot map obj o = true →
      o ∈ reportedSlots cfg (d.IterateBody map obj object_size [])) := by
  induction d with
  | SubclassBodyDescriptor parent child ihp ihc =>
    simp only [BodyDescriptor.slotAligned, Bool.and_eq_true] at haligned
    obtain ⟨hp1, hp2⟩ := ihp haligned.1
    obtain ⟨hc1, hc2⟩ := ihc haligned.2
    have hcalls : (BodyDescriptor.SubclassBodyDescriptor parent child).IterateBody
        map obj object_size []
        = parent.IterateBody map obj object_size [] ++
          child.IterateBody map obj object_size [] := by
      simp only [BodyDescriptor.IterateBody]
      rw [BodyDescriptor.IterateBody_eq_append child]
    rw [hcalls, reportedSlots_append]
    simp only [List.mem_append, BodyDescriptor.IsValidSlot, Bool.or_eq_true]
    constructor
    · rintro o (ho | ho)
      · exact Or.inl (hp1 o ho)
      · exact Or.inr (hc1 o ho)
    · rintro o hdvd hlt (ho | ho)
      · exact Or.inl (hp2 o hdvd hlt ho)
      · exact Or.inr (hc2 o hdvd hlt ho)
  | DataOnlyBodyDescriptor =>
    simp [BodyDescriptor.IterateBody, BodyDescriptor.IsValidSlot, reportedSlots]
  | _ =>
    simp only [BodyDescriptor.slotAligned, decide_eq_true_eq] at haligned
    simp only [BodyDescriptor.IterateBody, BodyDescriptorBase.IteratePointers,
      BodyDescriptorBase.IterateMaybeWeakPointers, reportedSlots, List.nil_append,
      List.flatMap_cons, List.flatMap_nil, List.append_nil, VisitorCall.slots,
      BodyDescriptor.IsValidSlot, Bool.and_eq_true, decide_eq_true_eq, ge_iff_le]
    constructor
    · intro o ho
      have := rangeSlots_bounds cfg _ _ o ho
      first | exact this | exact this.1
    · intro o hdvd hlt hvalid
      rw [mem_rangeSlots_aligned cfg _ _ o haligned]
      first | exact ⟨hvalid.1, hvalid.2, hdvd⟩ | exact ⟨hvalid, hlt, hdvd⟩

/-- C28 at the composite of FixedBodyDescriptor<8, 16, 16> and
SuffixRangeWeakBodyDescriptor<16> with 8-byte slots, for an object of size 32 and
the slot at offset 24. -/
theorem IsValidSlot_agrees_with_IterateBody_witness :
    (BodyDescriptor.SubclassBodyDescriptor (BodyDescriptor.FixedBodyDescriptor 8 16 16)
        (BodyDescriptor.SuffixRangeWeakBodyDescriptor 16)).slotAligned config64 = true ∧
    (24 : Int) ∈ reportedSlots config64
      ((BodyDescriptor.SubclassBodyDescriptor (BodyDescriptor.FixedBodyDescriptor 8 16 16)
        (BodyDescriptor.SuffixRangeWeakBodyDescriptor 16)).IterateBody ⟨0⟩ ⟨0⟩ 32 []) :=
  ⟨by decide,
   (IsValidSlot_agrees_with_IterateBody config64
      (BodyDescriptor.SubclassBodyDescriptor (BodyDescriptor.FixedBodyDescriptor 8 16 16)
        (BodyDescriptor.SuffixRangeWeakBodyDescriptor 16)) (by decide) ⟨0⟩ ⟨0⟩ 32).2 24
      (by decide) (by decide) (by decide)⟩

/-! ## Small integers -/

/-- Arithmetic of the small-integer encoding in a word of w bits with s tag and
shift bits: the encoded word is even, fits the word, and decodes to the value. -/
theorem smi_encode_decode_arith (w s : Nat) (hs1 : 1 ≤ s) (hsw : s < w) (n : Int)
    (hlo : -(2 : Int) ^ (w - 1 - s) ≤ n) (hhi : n < (2 : Int) ^ (w - 1 - s)) :
    (n * 2 ^ s % 2 ^ w).toNat % 2 = 0 ∧
    (n * 2 ^ s % 2 ^ w).toNat < 2 ^ w ∧
    (if (n * 2 ^ s % 2 ^ w).toNat % 2 ^ w < 2 ^ (w - 1) then
        (((n * 2 ^ s % 2 ^ w).toNat % 2 ^ w : Nat) : Int)
      else (((n * 2 ^ s % 2 ^ w).toNat % 2 ^ w : Nat) : Int) - 2 ^ w) / 2 ^ s = n := by
  obtain ⟨t, rfl⟩ : ∃ t, s = t + 1 := ⟨s - 1, by omega⟩
  obtain ⟨u, rfl⟩ : ∃ u, w = t + 1 + 1 + u := ⟨w - (t + 1) - 1, by omega⟩
  have hu : t + 1 + 1 + u - 1 - (t + 1) = u := by omega
  rw [hu] at hlo hhi
  have hw1 : t + 1 + 1 + u - 1 = t + 1 + u := by omega
  rw [hw1]
  set H : Int := 2 ^ u with hH
  set P : Int := 2 ^ t with hP
  have hHpos : 0 < H := by positivity
  have hPpos : 0 < P := by positivity
  have hs : (2 : Int) ^ (t + 1) = 2 * P := by rw [pow_succ]; ring
  have hW : (2 : Int) ^ (t + 1 + 1 + u) = 2 * (2 * P * H) := by
    rw [pow_add, pow_succ, hs]; ring
  have hW1 : (2 : Int) ^ (t + 1 + u) = 2 * P * H := by
    rw [pow_add, hs]
  have hWn : (2 : Nat) ^ (t + 1 + 1 + u) = (2 * (2 * P * H)).toNat := by
    rw [← hW]; norm_cast
  have hW1n : (2 : Nat) ^ (t + 1 + u) = (2 * P * H).toNat := by
    rw [← hW1]; norm_cast
  rw [hs, hW, hWn, hW1n]
  set A : Int := P * H with hA
  have hApos : 0 < A := by positivity
  have hm_lo : -(2 * A) ≤ n * (2 * P) := by nlinarith
  have hm_hi : n * (2 * P) < 2 * A := by nlinarith
  have h2PH : 2 * P * H = 2 * A := by rw [hA]; ring
  rw [h2PH]
  have hmod : n * (2 * P) % (2 * (2 * A)) =
      if 0 ≤ n * (2 * P) then n * (2 * P) else n * (2 * P) + 2 * (2 * A) := by
    split_ifs with h
    · exact Int.emod_eq_of_lt h (by omega)
    · rw [← Int.add_mul_emod_self_left (n * (2 * P)) (2 * (2 * A)) 1]
      rw [mul_one]
      exact Int.emod_eq_of_lt (by omega) (by omega)
  have hdiv : n * (2 * P) / (2 * P) = n := Int.mul_ediv_cancel _ (by omega)
  set m : Int := n * (2 * P) with hm
  have hmeven : m % 2 = 0 := by
    rw [hm]
    have : n * (2 * P) = 2 * (n * P) := by ring
    rw [this]; simp
  rw [hmod]
  have hmodlt : ∀ e : Int, 0 ≤ e → e < 2 * (2 * A) →
      e.toNat % (2 * (2 * A)).toNat = e.toNat := by
    intro e h0 h1
    exact Nat.mod_eq_of_lt (by omega)
  by_cases h1 : 0 ≤ m
  · rw [if_pos h1, hmodlt m h1 (by omega)]
    refine ⟨by omega, by omega, ?_⟩
    rw [if_pos (by omega), Int.toNat_of_nonneg h1]
    exact hdiv
  · rw [if_neg h1, hmodlt (m + 2 * (2 * A)) (by omega) (by omega)]
    refine ⟨by omega, by omega, ?_⟩
    rw [if_neg (by omega), Int.toNat_of_nonneg (by omega)]
    rw [show m + 2 * (2 * A) - 2 * (2 * A) = m by ring]
    exact hdiv

/-- C24: for every small integer that is representable above the tag and shift
bits of the storage, the tagged value that encodes it fits the storage, is a
Smi, converts back to the same integer through ToSmi, and is neither strong
(IsStrong returns false, in every build), nor weak, nor cleared, for both
families and both storage types. -/
theorem smi_roundtrip (cfg : Config) (kRefType : HeapObjectReferenceType) (S : StorageType)
    (smiShift : Nat) (n : Int) (hshift : 1 ≤ smiShift) (hroom : smiShift < 8 * S.sizeof cfg)
    (hlo : -(2 : Int) ^ (8 * S.sizeof cfg - 1 - smiShift) ≤ n)
    (hhi : n < (2 : Int) ^ (8 * S.sizeof cfg - 1 - smiShift)) :
    (TaggedImpl.FromSmi cfg kRefType S smiShift n).Fits cfg ∧
    (TaggedImpl.FromSmi cfg kRefType S smiShift n).IsSmi = true ∧
    (TaggedImpl.FromSmi cfg kRefType S smiShift n).ToSmi cfg smiShift = some n ∧
    (TaggedImpl.FromSmi cfg kRefType S smiShift n).IsStrong cfg = some false ∧
    (TaggedImpl.FromSmi cfg kRefType S smiShift n).IsWeak = false ∧
    (TaggedImpl.FromSmi cfg kRefType S smiShift n).IsCleared = false := by
  obtain ⟨heven, hfits, hdecode⟩ :=
    smi_encode_decode_arith (8 * S.sizeof cfg) smiShift hshift hroom n hlo hhi
  have hsmi : (TaggedImpl.FromSmi cfg kRefType S smiShift n).IsSmi = true := by
    simp [TaggedImpl.IsSmi, TaggedImpl.FromSmi, HAS_SMI_TAG, heven]
  have h4 : (n * 2 ^ smiShift % 2 ^ (8 * S.sizeof cfg)).toNat % 4 ≠ 1 ∧
      (n * 2 ^ smiShift % 2 ^ (8 * S.sizeof cfg)).toNat % 4 ≠ 3 ∧
      (n * 2 ^ smiShift % 2 ^ (8 * S.sizeof cfg)).toNat % 4294967296 ≠ 3 := by
    omega
  refine ⟨hfits, hsmi, ?_, ?_, ?_, ?_⟩
  · unfold TaggedImpl.ToSmi
    rw [if_pos hsmi]
    simp only [TaggedImpl.signedWord, TaggedImpl.FromSmi]
    rw [hdecode]
  · have hstrong : HAS_STRONG_HEAP_OBJECT_TAG
        (TaggedImpl.FromSmi cfg kRefType S smiShift n).ptr_ = false := by
      simp [TaggedImpl.FromSmi, HAS_STRONG_HEAP_OBJECT_TAG, h4.1]
    cases kRefType <;> cases hd : cfg.debug <;>
      simp [TaggedImpl.IsStrong, hsmi, hstrong, TaggedImpl.kCanBeWeak, DCHECK, CHECK, hd]
  · simp [TaggedImpl.IsWeak, TaggedImpl.IsWeakOrCleared, TaggedImpl.FromSmi,
      HAS_WEAK_HEAP_OBJECT_TAG, h4.2.1]
  · simp [TaggedImpl.IsCleared, TaggedImpl.FromSmi, static_cast_uint32_t,
      kClearedWeakHeapObjectLower32, h4.2.2]

/-- C24 at the integer -5 with 32 tag and shift bits in full-width storage,
and with 1 tag bit in compressed storage. -/
theorem smi_roundtrip_witness :
    (TaggedImpl.FromSmi config64 HeapObjectReferenceType.STRONG StorageType.Address 32
        (-5)).ToSmi config64 32 = some (-5) ∧
    (TaggedImpl.FromSmi compressedConfig HeapObjectReferenceType.WEAK StorageType.Tagged_t 1
        (-5)).ToSmi compressedConfig 1 = some (-5) :=
  ⟨(smi_roundtrip config64 HeapObjectReferenceType.STRONG StorageType.Address 32 (-5)
      (by decide) (by decide) (by decide) (by decide)).2.2.1,
   (smi_roundtrip compressedConfig HeapObjectReferenceType.WEAK StorageType.Tagged_t 1 (-5)
      (by decide) (by decide) (by decide) (by decide)).2.2.1⟩

end V8
